import Mathlib

/-!
Verification of the genarch Floor Plan Generation Engine.

Shallow embedding conventions:
* Python floats are modelled as `ℚ` (exact rationals); every arithmetic
  operation of the source is mirrored exactly.
* `math`-style square roots (used only for wall lengths / point distances)
  are modelled by `ratSqrt`, which is exact whenever the radicand is the
  square of a rational — in particular for all axis-aligned geometry, the
  only geometry the engine is specified for.  Comparisons of the form
  `distance(p, q) < tol` from the source are embedded as the equivalent
  squared comparison `dist² < tol²` (`tol > 0` at every call site).
* Python `raise` is modelled with `Except String`; functions that cannot
  raise are plain functions.
* Python dicts keyed by strings are modelled as association lists in
  insertion order (Python dicts are insertion ordered); sets are modelled
  as duplicate-free lists in insertion order.
* The process-wide ID counters of `genarch.utils.id_generator` are an
  explicit `Counters` state threaded through the functions that use them.
* `random.Random(seed)` is a deterministic pseudo-random source; it is
  abstracted as a stream `Nat → ℚ` of draws together with a position,
  consumed in the source's call order.
-/

namespace GenArch

/-- Floor square root on naturals (bounded descent, so that it evaluates
by kernel reduction). -/
def natSqrtFloor (n : Nat) : Nat :=
  let rec go : Nat → Nat
    | 0 => 0
    | k + 1 => if (k + 1) * (k + 1) ≤ n then k + 1 else go k
  go n

/-- Exact square root on squares of rationals; models the float square root
`(dx**2 + dy**2) ** 0.5` of the source.  For a radicand that is the square of
a rational (always the case for axis-aligned walls) the value is exact. -/
def ratSqrt (q : ℚ) : ℚ :=
  (natSqrtFloor q.num.toNat : ℚ) / (natSqrtFloor q.den : ℚ)

/-- Python's `str.lower()` (list-based, so that it evaluates by kernel
reduction; the engine only feeds it ASCII names). -/
def pyLower (s : String) : String := ⟨s.data.map Char.toLower⟩

/-- Python's `str.upper()`. -/
def pyUpper (s : String) : String := ⟨s.data.map Char.toUpper⟩

/-- Python's `s[0]` on a string (empty for the empty string, which in the
source would raise `IndexError`; every call site guards against it). -/
def strHead1 (s : String) : String :=
  match s.data with
  | [] => ""
  | c :: _ => ⟨[c]⟩

/-- Substring test: Python's `needle in hay`. -/
def substrOf (needle hay : String) : Bool :=
  decide (List.IsInfix needle.toList hay.toList)

instance {ε α : Type _} [DecidableEq ε] [DecidableEq α] :
    DecidableEq (Except ε α) := fun x y =>
  match x, y with
  | .error a, .error b =>
    if h : a = b then .isTrue (by rw [h]) else .isFalse (by simp [h])
  | .error _, .ok _ => .isFalse (by simp)
  | .ok _, .error _ => .isFalse (by simp)
  | .ok a, .ok b =>
    if h : a = b then .isTrue (by rw [h]) else .isFalse (by simp [h])

/-- `genarch.models.constraints.Point2D`: 2D point in meters. -/
structure Point2D where
  x : ℚ
  y : ℚ
deriving DecidableEq, Repr

instance : Inhabited Point2D := ⟨⟨0, 0⟩⟩

/-- `genarch.models.constraints.RoomSpec`. -/
structure RoomSpec where
  name : String
  area_m2 : ℚ
  adjacency : List String := []
  exterior_wall_preference : Bool := false
  min_width_m : ℚ := 2.4
  min_depth_m : ℚ := 2.4
  aspect_range : ℚ × ℚ := (0.5, 2.0)
deriving DecidableEq, Repr

/-- `genarch.models.constraints.OpeningSpec`. -/
structure OpeningSpec where
  type : String
  width_m : ℚ
  height_m : ℚ
  sill_height_m : ℚ := 0
  wall_preference : Option String := none
deriving DecidableEq, Repr

/-- `genarch.models.constraints.BuildingType`. -/
inductive BuildingType where
  | residential | commercial | healthcare | educational
deriving DecidableEq, Repr

/-- `genarch.models.constraints.FloorPlanConstraints` (fields only; the
`__post_init__` validation is `FloorPlanConstraints.postInit` below). -/
structure FloorPlanConstraints where
  envelope_polygon : List Point2D
  total_area_m2 : ℚ
  rooms : List RoomSpec
  building_type : BuildingType := .residential
  floor_count : Int := 1
  floor_height_m : ℚ := 3.0
  external_wall_thickness_m : ℚ := 0.35
  internal_wall_thickness_m : ℚ := 0.1
  entrance_facade : String := "south"
  openings : List (String × OpeningSpec) := []
deriving DecidableEq, Repr

/-- The facade spellings accepted by `FloorPlanConstraints.__post_init__`. -/
def validFacades : List String :=
  ["north", "south", "east", "west", "n", "s", "e", "w"]

/-- `FloorPlanConstraints.__post_init__`: the four construction-time checks,
in source order; `.error` models `raise ValueError`. -/
def FloorPlanConstraints.postInit (c : FloorPlanConstraints) : Except String Unit :=
  if c.envelope_polygon.length < 3 then
    .error "Envelope polygon must have at least 3 vertices"
  else if c.total_area_m2 ≤ 0 then
    .error "Total area must be positive"
  else if c.rooms.isEmpty then
    .error "At least one room is required"
  else if ¬ (validFacades.contains (pyLower c.entrance_facade)) then
    .error ("Invalid entrance facade: " ++ c.entrance_facade)
  else
    .ok ()

/-- `genarch.models.floor_plan.Opening`. -/
structure Opening where
  id : String
  type : String
  wall_id : String
  position_along_wall : ℚ
  width_m : ℚ
  height_m : ℚ
  sill_height_m : ℚ := 0
  center : Option Point2D := none
deriving DecidableEq, Repr

/-- `Opening.is_door`: door/entrance/patio/french/sliding. -/
def Opening.is_door (o : Opening) : Bool :=
  ["door", "entrance", "patio", "french", "sliding"].contains o.type

/-- `Opening.is_window`. -/
def Opening.is_window (o : Opening) : Bool :=
  o.type == "window"

/-- `genarch.models.floor_plan.WallSegment`. -/
structure WallSegment where
  id : String
  start : Point2D
  stop : Point2D         -- the source field `end` (a Lean keyword)
  thickness_m : ℚ
  is_exterior : Bool
  facade : Option String := none
  room_ids : List String := []
  openings : List Opening := []
deriving DecidableEq, Repr

/-- `WallSegment.length`: `(dx**2 + dy**2) ** 0.5`. -/
def WallSegment.length (w : WallSegment) : ℚ :=
  ratSqrt ((w.stop.x - w.start.x) ^ 2 + (w.stop.y - w.start.y) ^ 2)

/-- `WallSegment.get_point_at_position`. -/
def WallSegment.get_point_at_position (w : WallSegment) (t : ℚ) : Point2D :=
  ⟨w.start.x + t * (w.stop.x - w.start.x), w.start.y + t * (w.stop.y - w.start.y)⟩

/-- `genarch.models.floor_plan.Room`. -/
structure Room where
  id : String
  name : String
  polygon : List Point2D
  area_m2 : ℚ
  floor_index : Int := 0
  connected_rooms : List String := []
  wall_ids : List String := []
deriving DecidableEq, Repr

/-- `genarch.models.floor_plan.FloorPlan` (fields only; `__post_init__` is
`FloorPlan.postInit`, applied by the constructor `FloorPlan.make`). -/
structure FloorPlan where
  rooms : List Room
  walls : List WallSegment
  openings : List Opening
  envelope : List Point2D
  floor_index : Int := 0
  total_area_m2 : ℚ := 0
deriving DecidableEq, Repr

/-- `FloorPlan.__post_init__`: fill in `total_area_m2` from the room areas
when it is zero and there are rooms. -/
def FloorPlan.postInit (p : FloorPlan) : FloorPlan :=
  if p.total_area_m2 = 0 ∧ ¬ p.rooms.isEmpty then
    { p with total_area_m2 := (p.rooms.map Room.area_m2).sum }
  else p

/-- Constructing a `FloorPlan` in Python always runs `__post_init__`. -/
def FloorPlan.make (rooms : List Room) (walls : List WallSegment)
    (openings : List Opening) (envelope : List Point2D)
    (floor_index : Int) (total_area_m2 : ℚ) : FloorPlan :=
  FloorPlan.postInit
    { rooms := rooms, walls := walls, openings := openings,
      envelope := envelope, floor_index := floor_index,
      total_area_m2 := total_area_m2 }

/-!
### Serialization (`to_dict` / `from_dict`)

The JSON dictionaries are mirrored by `...Dict` structures whose fields are
the dict entries.  An `Option` field models a key that may be absent or
`null`: Python's `data.get(key)` treats both the same way.
-/

/-- The dict produced by `Opening.to_dict`; the `center` key is present iff
the opening has a center (`if self.center:` — a `Point2D` is always truthy). -/
structure OpeningDict where
  id : String
  type : String
  wall_id : String
  position_along_wall : ℚ
  width_m : ℚ
  height_m : ℚ
  sill_height_m : ℚ
  center : Option Point2D
deriving DecidableEq, Repr

/-- `Opening.to_dict`. -/
def Opening.to_dict (o : Opening) : OpeningDict :=
  { id := o.id, type := o.type, wall_id := o.wall_id,
    position_along_wall := o.position_along_wall, width_m := o.width_m,
    height_m := o.height_m, sill_height_m := o.sill_height_m,
    center := o.center }

/-- `Opening.from_dict`: `center = Point2D.from_dict(data["center"]) if
data.get("center") else None` (a present `center` dict is non-empty, hence
truthy). -/
def Opening.from_dict (d : OpeningDict) : Opening :=
  { id := d.id, type := d.type, wall_id := d.wall_id,
    position_along_wall := d.position_along_wall, width_m := d.width_m,
    height_m := d.height_m, sill_height_m := d.sill_height_m,
    center := d.center }

/-- The dict produced by `WallSegment.to_dict` (every key always present;
`facade` may be `null`). -/
structure WallDict where
  id : String
  start : Point2D
  stop : Point2D
  thickness_m : ℚ
  is_exterior : Bool
  facade : Option String
  room_ids : List String
  openings : List OpeningDict
deriving DecidableEq, Repr

/-- `WallSegment.to_dict`. -/
def WallSegment.to_dict (w : WallSegment) : WallDict :=
  { id := w.id, start := w.start, stop := w.stop,
    thickness_m := w.thickness_m, is_exterior := w.is_exterior,
    facade := w.facade, room_ids := w.room_ids,
    openings := w.openings.map Opening.to_dict }

/-- `WallSegment.from_dict`. -/
def WallSegment.from_dict (d : WallDict) : WallSegment :=
  { id := d.id, start := d.start, stop := d.stop,
    thickness_m := d.thickness_m, is_exterior := d.is_exterior,
    facade := d.facade, room_ids := d.room_ids,
    openings := d.openings.map Opening.from_dict }

/-- The dict produced by `Room.to_dict`. -/
structure RoomDict where
  id : String
  name : String
  polygon : List Point2D
  area_m2 : ℚ
  floor_index : Int
  connected_rooms : List String
  wall_ids : List String
deriving DecidableEq, Repr

/-- `Room.to_dict`. -/
def Room.to_dict (r : Room) : RoomDict :=
  { id := r.id, name := r.name, polygon := r.polygon, area_m2 := r.area_m2,
    floor_index := r.floor_index, connected_rooms := r.connected_rooms,
    wall_ids := r.wall_ids }

/-- `Room.from_dict`. -/
def Room.from_dict (d : RoomDict) : Room :=
  { id := d.id, name := d.name, polygon := d.polygon, area_m2 := d.area_m2,
    floor_index := d.floor_index, connected_rooms := d.connected_rooms,
    wall_ids := d.wall_ids }

/-- The dict produced by `FloorPlan.to_dict`. -/
structure FloorPlanDict where
  rooms : List RoomDict
  walls : List WallDict
  openings : List OpeningDict
  envelope : List Point2D
  floor_index : Int
  total_area_m2 : ℚ
deriving DecidableEq, Repr

/-- `FloorPlan.to_dict`. -/
def FloorPlan.to_dict (p : FloorPlan) : FloorPlanDict :=
  { rooms := p.rooms.map Room.to_dict, walls := p.walls.map WallSegment.to_dict,
    openings := p.openings.map Opening.to_dict, envelope := p.envelope,
    floor_index := p.floor_index, total_area_m2 := p.total_area_m2 }

/-- `FloorPlan.from_dict`: rebuilds the fields and constructs the dataclass,
which re-runs `__post_init__` (`FloorPlan.make`). -/
def FloorPlan.from_dict (d : FloorPlanDict) : FloorPlan :=
  FloorPlan.make (d.rooms.map Room.from_dict) (d.walls.map WallSegment.from_dict)
    (d.openings.map Opening.from_dict) d.envelope d.floor_index d.total_area_m2

/-!
### `genarch.utils.geometry`
-/

/-- `polygon_area`: Shoelace formula, absolute value halved. -/
def polygon_area (polygon : List Point2D) : ℚ :=
  let n := polygon.length
  if n < 3 then 0
  else
    let a := (List.range n).foldl
      (fun acc i =>
        let p := polygon.getD i default
        let q := polygon.getD ((i + 1) % n) default
        acc + p.x * q.y - q.x * p.y) 0
    |a| / 2

/-- `polygon_bounds`: bounding box `(min_x, min_y, max_x, max_y)`;
`(0,0,0,0)` for the empty polygon. -/
def polygon_bounds (polygon : List Point2D) : ℚ × ℚ × ℚ × ℚ :=
  match polygon with
  | [] => (0, 0, 0, 0)
  | p :: rest =>
    (rest.foldl (fun m q => min m q.x) p.x,
     rest.foldl (fun m q => min m q.y) p.y,
     rest.foldl (fun m q => max m q.x) p.x,
     rest.foldl (fun m q => max m q.y) p.y)

/-- `point_in_polygon`: ray casting.  The division is guarded by
`(yi > y) != (yj > y)`, which forces `yj ≠ yi`. -/
def point_in_polygon (x y : ℚ) (polygon : List Point2D) : Bool :=
  let n := polygon.length
  if n < 3 then false
  else
    let step := fun (st : Bool × Nat) (i : Nat) =>
      let (inside, j) := st
      let pi := polygon.getD i default
      let pj := polygon.getD j default
      let inside :=
        if ((pi.y > y) ≠ (pj.y > y)) ∧
            (x < (pj.x - pi.x) * (y - pi.y) / (pj.y - pi.y) + pi.x)
        then ¬ inside else inside
      (inside, i)
    ((List.range n).foldl step (false, n - 1)).1

/-- `_segments_intersect` (via the `ccw` predicate). -/
def segments_intersect (x1 y1 x2 y2 x3 y3 x4 y4 : ℚ) : Bool :=
  let ccw := fun (ax ay bx bb cx cy : ℚ) =>
    decide ((cy - ay) * (bx - ax) > (bb - ay) * (cx - ax))
  (ccw x1 y1 x3 y3 x4 y4 ≠ ccw x2 y2 x3 y3 x4 y4) ∧
  (ccw x1 y1 x2 y2 x3 y3 ≠ ccw x1 y1 x2 y2 x4 y4)

/-- `polygons_intersect`: vertex containment either way, else any pair of
edges intersecting. -/
def polygons_intersect (poly1 poly2 : List Point2D) : Bool :=
  if poly1.isEmpty ∨ poly2.isEmpty then false
  else if poly1.any (fun p => point_in_polygon p.x p.y poly2) then true
  else if poly2.any (fun p => point_in_polygon p.x p.y poly1) then true
  else
    (List.range poly1.length).any fun i =>
      let p := poly1.getD i default
      let p2 := poly1.getD ((i + 1) % poly1.length) default
      (List.range poly2.length).any fun j =>
        let q := poly2.getD j default
        let q2 := poly2.getD ((j + 1) % poly2.length) default
        segments_intersect p.x p.y p2.x p2.y q.x q.y q2.x q2.y

/-- `minimum_width`: bounding-box minimum dimension; `0` below 3 vertices. -/
def minimum_width (polygon : List Point2D) : ℚ :=
  if polygon.length < 3 then 0
  else
    let (min_x, min_y, max_x, max_y) := polygon_bounds polygon
    min (max_x - min_x) (max_y - min_y)

/-- `split_polygon_horizontal`: `(polygon, [])` when the cut misses the
bounds, else the two bounding-box rectangles below/above `y_split`. -/
def split_polygon_horizontal (polygon : List Point2D) (y_split : ℚ) :
    List Point2D × List Point2D :=
  let (min_x, min_y, max_x, max_y) := polygon_bounds polygon
  if y_split ≤ min_y ∨ y_split ≥ max_y then (polygon, [])
  else
    ([⟨min_x, min_y⟩, ⟨max_x, min_y⟩, ⟨max_x, y_split⟩, ⟨min_x, y_split⟩],
     [⟨min_x, y_split⟩, ⟨max_x, y_split⟩, ⟨max_x, max_y⟩, ⟨min_x, max_y⟩])

/-- `split_polygon_vertical`. -/
def split_polygon_vertical (polygon : List Point2D) (x_split : ℚ) :
    List Point2D × List Point2D :=
  let (min_x, min_y, max_x, max_y) := polygon_bounds polygon
  if x_split ≤ min_x ∨ x_split ≥ max_x then (polygon, [])
  else
    ([⟨min_x, min_y⟩, ⟨x_split, min_y⟩, ⟨x_split, max_y⟩, ⟨min_x, max_y⟩],
     [⟨x_split, min_y⟩, ⟨max_x, min_y⟩, ⟨max_x, max_y⟩, ⟨x_split, max_y⟩])

/-- `distance(p, q) < tol`, embedded as the equivalent squared comparison
(`tol > 0` at every call site of the source). -/
def distLt (p q : Point2D) (tol : ℚ) : Bool :=
  (q.x - p.x) ^ 2 + (q.y - p.y) ^ 2 < tol ^ 2

/-!
### `genarch.utils.id_generator`

The process-wide `_counters` dict is the explicit `Counters` state.
-/

/-- The `_counters` dict: prefix string → next index. -/
abbrev Counters := List (String × Nat)

/-- Store `v` under `k` (replace the first binding, else append). -/
def countersSet (c : Counters) (k : String) (v : Nat) : Counters :=
  match c with
  | [] => [(k, v)]
  | (k0, v0) :: rest =>
    if k0 == k then (k0, v) :: rest else (k0, v0) :: countersSet rest k v

/-- `_next_count`: current value (default 0), post-incremented. -/
def nextCount (c : Counters) (pfx : String) : Nat × Counters :=
  let cur := ((c.lookup pfx).getD 0)
  (cur, countersSet c pfx (cur + 1))

/-- `generate_room_id` with an explicit index (the generator always passes
one, so the counters are untouched). -/
def generate_room_id (floor_index : Int) (index : Nat) : String :=
  "room_" ++ toString floor_index ++ "_" ++ toString index

/-- `generate_wall_id` with an explicit index. -/
def generate_wall_id (floor_index : Int) (is_exterior : Bool) (index : Nat) :
    String :=
  let wall_type := if is_exterior then "ext" else "int"
  "wall_" ++ toString floor_index ++ "_" ++ wall_type ++ "_" ++ toString index

/-- `generate_opening_id` without an explicit index: draws from the
per-prefix counter. -/
def generate_opening_id (counters : Counters) (opening_type : String)
    (floor_index : Int) (facade : String) : String × Counters :=
  let typePfx := if opening_type == "window" then "win" else opening_type
  let facade_upper := pyUpper facade
  let key := typePfx ++ "_" ++ toString floor_index ++ "_" ++ facade_upper
  let (i, c) := nextCount counters key
  (key ++ "_" ++ toString i, c)

/-!
### `genarch.generator.opening_placer`
-/

instance : Inhabited RoomSpec := ⟨{ name := "", area_m2 := 0 }⟩
instance : Inhabited Room := ⟨{ id := "", name := "", polygon := [], area_m2 := 0 }⟩
instance : Inhabited WallSegment :=
  ⟨{ id := "", start := default, stop := default, thickness_m := 0, is_exterior := false }⟩

def MIN_CORNER_DISTANCE : ℚ := 0.2
def MIN_OPENING_SPACING : ℚ := 0.6
def DOOR_MIN_FROM_CORNER : ℚ := 0.2
def WINDOW_MIN_FROM_CORNER : ℚ := 0.4

/-- Replace the element at index `i` by `f` of it (identity out of range). -/
def listModify (l : List α) (i : Nat) (f : α → α) : List α :=
  match l, i with
  | [], _ => []
  | a :: rest, 0 => f a :: rest
  | a :: rest, i + 1 => a :: listModify rest i f

/-- `OpeningPlacer._adjust_position_for_corners`. -/
def adjust_position_for_corners (wall : WallSegment) (position opening_width
    min_corner_distance : ℚ) : ℚ :=
  let wall_length := wall.length
  let opening_half := if wall_length > 0 then opening_width / 2 / wall_length else 0.1
  let min_pos := if wall_length > 0 then min_corner_distance / wall_length else 0.1
  let min_bound := min_pos + opening_half
  let max_bound := 1 - min_bound
  max min_bound (min max_bound position)

/-- `OpeningPlacer._is_position_valid`. -/
def is_position_valid (position opening_width wall_length min_pos max_pos
    min_spacing : ℚ) (existing_openings : List Opening) : Bool :=
  if position < min_pos ∨ position > max_pos then false
  else
    let opening_half_norm := if wall_length > 0 then opening_width / 2 / wall_length else 0.1
    let spacing_norm := if wall_length > 0 then min_spacing / wall_length else 0.1
    existing_openings.all fun existing =>
      let existing_half := if wall_length > 0 then existing.width_m / 2 / wall_length else 0.1
      let min_distance := opening_half_norm + existing_half + spacing_norm
      ¬ (|position - existing.position_along_wall| < min_distance)

/-- `OpeningPlacer._find_valid_position`: target first, then the fixed
candidate offsets, first in-range valid one wins. -/
def find_valid_position (wall : WallSegment) (target_position opening_width
    min_corner_distance min_spacing : ℚ) (existing_openings : List Opening) :
    Option ℚ :=
  let wall_length := wall.length
  let min_pos0 := if wall_length > 0 then min_corner_distance / wall_length else 0.1
  let max_pos0 := 1 - min_pos0
  let opening_half := if wall_length > 0 then opening_width / 2 / wall_length else 0.1
  let min_pos := max min_pos0 opening_half
  let max_pos := min max_pos0 (1 - opening_half)
  if min_pos ≥ max_pos then none
  else
    let wall_openings := existing_openings.filter (fun o => o.wall_id == wall.id)
    if is_position_valid target_position opening_width wall_length min_pos max_pos
        min_spacing wall_openings then
      some target_position
    else
      ([0.1, 0.2, 0.3, -0.1, -0.2, -0.3] : List ℚ).findSome? fun off =>
        -- `alt_pos = target_position + offset`
        if min_pos ≤ target_position + off ∧ target_position + off ≤ max_pos then
          if is_position_valid (target_position + off) opening_width wall_length
              min_pos max_pos min_spacing wall_openings then
            some (target_position + off)
          else none
        else none

/-- `OpeningPlacer._place_entrance_door`. -/
def place_entrance_door (rooms : List Room) (walls : List WallSegment)
    (c : FloorPlanConstraints) (counters : Counters) :
    Option Opening × Counters :=
  let facade := strHead1 (pyUpper c.entrance_facade)
  let entrance_room? :=
    match rooms.find? (fun r => substrOf "entrance" (pyLower r.name)) with
    | some r => some r
    | none => rooms.head?
  match entrance_room? with
  | none => (none, counters)
  | some entrance_room =>
    let wall? :=
      match walls.find? (fun w => w.is_exterior && w.facade == some facade &&
          w.room_ids.contains entrance_room.id) with
      | some w => some w
      | none => walls.find? (fun w => w.is_exterior && w.facade == some facade)
    match wall? with
    | none => (none, counters)
    | some entrance_wall =>
      let opening_width := (1.0 : ℚ)   -- OPENING_DEFAULTS["entrance"]["width"]
      let position := adjust_position_for_corners entrance_wall 0.5 opening_width
        DOOR_MIN_FROM_CORNER
      let gen := generate_opening_id counters "entrance" 0 facade
      let center := entrance_wall.get_point_at_position position
      (some { id := gen.1, type := "entrance", wall_id := entrance_wall.id,
              position_along_wall := position, width_m := opening_width,
              height_m := 2.1, sill_height_m := 0, center := some center },
       gen.2)

/-- `OpeningPlacer._place_door_on_wall` (the counters are only consumed when
a valid position exists). -/
def place_door_on_wall (wall : WallSegment) (existing_openings : List Opening)
    (counters : Counters) : Option Opening × Counters :=
  -- door_width = OPENING_DEFAULTS["door"]["width"] = 0.9
  match find_valid_position wall 0.5 0.9 DOOR_MIN_FROM_CORNER
      MIN_OPENING_SPACING existing_openings with
  | none => (none, counters)
  | some position =>
    let gen := generate_opening_id counters "door" 0 "INT"
    (some { id := gen.1, type := "door", wall_id := wall.id,
            position_along_wall := position, width_m := 0.9,
            height_m := 2.1, sill_height_m := 0,
            center := some (wall.get_point_at_position position) },
     gen.2)

/-- `OpeningPlacer._place_window_on_wall`. -/
def place_window_on_wall (wall : WallSegment) (existing_openings : List Opening)
    (counters : Counters) : Option Opening × Counters :=
  -- window_width = OPENING_DEFAULTS["window"]["width"] = 1.2
  match find_valid_position wall 0.5 1.2 WINDOW_MIN_FROM_CORNER
      MIN_OPENING_SPACING existing_openings with
  | none => (none, counters)
  | some position =>
    let facade := match wall.facade with    -- `wall.facade or "N"`
      | none => "N"
      | some f => if f.isEmpty then "N" else f
    let gen := generate_opening_id counters "window" 0 facade
    (some { id := gen.1, type := "window", wall_id := wall.id,
            position_along_wall := position, width_m := 1.2,
            height_m := 1.2, sill_height_m := 0.9,
            center := some (wall.get_point_at_position position) },
     gen.2)

/-- `tuple(sorted([a, b]))` for connection keys. -/
def sortedPair (a b : String) : String × String :=
  if a ≤ b then (a, b) else (b, a)

/-- Mutable state of `_place_internal_doors`: accumulated doors, the placed
connection keys, the (mutated) rooms and the ID counters. -/
structure DoorsAcc where
  doors : List Opening
  placed : List (String × String)
  rooms : List Room
  counters : Counters

/-- Body of the inner `for adj_name in room_spec.adjacency` loop. -/
def internalDoorsInner (interior_walls : List WallSegment)
    (existing : List Opening) (idx : Nat) (acc : DoorsAcc) (adj_name : String) :
    DoorsAcc :=
  let room := acc.rooms.getD idx default
  let connection_key := sortedPair room.name adj_name
  if acc.placed.contains connection_key then acc
  else
    match acc.rooms.find? (fun r => r.name == adj_name) with
    | none => acc
    | some adj_room =>
      match interior_walls.find? (fun w =>
          w.room_ids.contains room.id && w.room_ids.contains adj_room.id) with
      | none => acc
      | some shared_wall =>
        match place_door_on_wall shared_wall (existing ++ acc.doors) acc.counters with
        | (none, counters) => { acc with counters := counters }
        | (some door, counters) =>
          -- update room connectivity (both room objects, in source order)
          let idxAdj := acc.rooms.findIdx (fun r => r.name == adj_name)
          let rooms := listModify acc.rooms idx fun r =>
            if r.connected_rooms.contains adj_room.id then r
            else { r with connected_rooms := r.connected_rooms ++ [adj_room.id] }
          let rooms := listModify rooms idxAdj fun r =>
            if r.connected_rooms.contains room.id then r
            else { r with connected_rooms := r.connected_rooms ++ [room.id] }
          { doors := acc.doors ++ [door],
            placed := acc.placed ++ [connection_key],
            rooms := rooms, counters := counters }

/-- `OpeningPlacer._place_internal_doors`. -/
def place_internal_doors (rooms : List Room) (walls : List WallSegment)
    (c : FloorPlanConstraints) (existing : List Opening) (counters : Counters) :
    DoorsAcc :=
  let interior_walls := walls.filter (fun w => ¬ w.is_exterior)
  (List.range rooms.length).foldl
    (fun acc idx =>
      let room := acc.rooms.getD idx default
      match c.rooms.find? (fun s => s.name == room.name) with
      | none => acc
      | some room_spec =>
        room_spec.adjacency.foldl (internalDoorsInner interior_walls existing idx) acc)
    { doors := [], placed := [], rooms := rooms, counters := counters }

/-- `OpeningPlacer._room_type_requires_window`. -/
def room_type_requires_window (room_name : String) : Bool :=
  let name_lower := pyLower room_name
  (["living", "kitchen", "bedroom", "dining", "study", "office", "lounge"]).any
    fun r => substrOf r name_lower

/-- The `facade_priority` key of `_select_best_wall_for_window`:
`(facade_priority.get(facade, 4), -wall.length)`. -/
def facadePrio (w : WallSegment) : ℚ :=
  match w.facade with
  | some "S" => 0
  | some "E" => 1
  | some "W" => 2
  | some "N" => 3
  | _ => 4

/-- The sort order of `_select_best_wall_for_window` (ascending in the key
`(priority, -length)`); ties keep list order, matching Python's stable sort. -/
def wallSortLe (a b : WallSegment) : Prop :=
  facadePrio a < facadePrio b ∨
    (facadePrio a = facadePrio b ∧ b.length ≤ a.length)

instance : DecidableRel wallSortLe := fun a b => by
  unfold wallSortLe; infer_instance

/-- `OpeningPlacer._select_best_wall_for_window`. -/
def select_best_wall_for_window (walls : List WallSegment) :
    Option WallSegment :=
  if walls.isEmpty then none
  else (walls.insertionSort wallSortLe).head?

/-- `OpeningPlacer._place_windows`. -/
def place_windows (rooms : List Room) (walls : List WallSegment)
    (c : FloorPlanConstraints) (existing : List Opening) (counters : Counters) :
    List Opening × Counters :=
  let exterior_walls := walls.filter (fun w => w.is_exterior)
  rooms.foldl
    (fun (acc : List Opening × Counters) room =>
      let spec? := c.rooms.find? (fun s => s.name == room.name)
      let needs_window :=
        (match spec? with
         | some s => s.exterior_wall_preference
         | none => false) || room_type_requires_window room.name
      if ¬ needs_window then acc
      else
        let room_ext_walls := exterior_walls.filter fun w =>
          w.room_ids.contains room.id
        if room_ext_walls.isEmpty then acc
        else
          match select_best_wall_for_window room_ext_walls with
          | none => acc
          | some best_wall =>
            match place_window_on_wall best_wall (existing ++ acc.1) acc.2 with
            | (none, counters) => (acc.1, counters)
            | (some window, counters) => (acc.1 ++ [window], counters))
    ([], counters)

/-- Append an opening to the first wall whose id matches
(`_find_wall_by_id` + `wall.openings.append`). -/
def updateFirstWall (walls : List WallSegment) (o : Opening) :
    List WallSegment :=
  match walls with
  | [] => []
  | w :: ws =>
    if w.id == o.wall_id then { w with openings := w.openings ++ [o] } :: ws
    else w :: updateFirstWall ws o

/-- Result of `OpeningPlacer.place_openings`: the returned list together
with the mutated rooms, walls and counter state. -/
structure PlaceResult where
  openings : List Opening
  rooms : List Room
  walls : List WallSegment
  counters : Counters

/-- `OpeningPlacer.place_openings`: entrance, then internal doors, then
windows; finally every opening is appended to its host wall.  The incoming
counter state is discarded (`reset_counters()` is the first action). -/
def place_openings (rooms : List Room) (walls : List WallSegment)
    (c : FloorPlanConstraints) : PlaceResult :=
  let counters : Counters := []      -- reset_counters()
  let ent := place_entrance_door rooms walls c counters
  let openings := match ent.1 with
    | some e => [e]
    | none => []
  let st := place_internal_doors rooms walls c openings ent.2
  let openings := openings ++ st.doors
  let win := place_windows st.rooms walls c openings st.counters
  let openings := openings ++ win.1
  let walls := openings.foldl updateFirstWall walls
  { openings := openings, rooms := st.rooms, walls := walls,
    counters := win.2 }

/-!
### `genarch.utils.random_seeded`

`SeededRandom(seed)` wraps `random.Random(seed)`, a deterministic
pseudo-random generator: the sequence of draws is a pure function of the
seed.  The draws are abstracted as a stream `Nat → ℚ` (each value in
`[0, 1)`) plus a position; `uniform` and `choice` each consume one draw.
-/

structure SeededRandom where
  stream : Nat → ℚ
  pos : Nat

/-- `random()`: next draw. -/
def SeededRandom.random (r : SeededRandom) : ℚ × SeededRandom :=
  (r.stream r.pos, { r with pos := r.pos + 1 })

/-- `uniform(a, b)` = `a + (b - a) * random()`. -/
def SeededRandom.uniform (r : SeededRandom) (a b : ℚ) : ℚ × SeededRandom :=
  let (q, r) := r.random
  (a + (b - a) * q, r)

/-- `choice(seq)`: one draw selects the index. -/
def SeededRandom.choice (r : SeededRandom) (seq : List String) (dflt : String) :
    String × SeededRandom :=
  let (q, r) := r.random
  (seq.getD (q * seq.length).floor.toNat dflt, r)

/-!
### `genarch.generator.bsp_subdivider`
-/

def MIN_ROOM_DIM : ℚ := 2.0
def MAX_DEPTH : Nat := 10

/-- A built BSP tree (the mutable parent/child `BSPNode` links of the source
become an inductive tree; internal nodes keep their polygon and split). -/
inductive BSPTree where
  | leaf (polygon : List Point2D)
  | node (polygon : List Point2D) (direction : String) (split_position : ℚ)
      (left right : BSPTree)
deriving DecidableEq, Repr

/-- A BSP leaf with an optional room assignment
(`BSPNode` as surfaced by `subdivide`). -/
structure BSPNode where
  polygon : List Point2D
  room_spec : Option RoomSpec := none
deriving DecidableEq, Repr

instance : Inhabited BSPNode := ⟨{ polygon := [] }⟩

/-- `BSPNode.width` of a polygon. -/
def nodeWidth (polygon : List Point2D) : ℚ :=
  let (min_x, _, max_x, _) := polygon_bounds polygon
  max_x - min_x

/-- `BSPNode.height` of a polygon. -/
def nodeHeight (polygon : List Point2D) : ℚ :=
  let (_, min_y, _, max_y) := polygon_bounds polygon
  max_y - min_y

/-- `BSPNode.aspect_ratio`; `none` models `float('inf')` (height 0). -/
def aspectOpt (polygon : List Point2D) : Option ℚ :=
  if nodeHeight polygon = 0 then none
  else some (nodeWidth polygon / nodeHeight polygon)

/-- `BSPSubdivider._choose_split_direction`. -/
def choose_split_direction (polygon : List Point2D) (rng : SeededRandom) :
    String × SeededRandom :=
  let aspect := aspectOpt polygon
  let wide := match aspect with      -- `aspect > 1.5` (inf > 1.5 is true)
    | none => true
    | some a => a > 1.5
  let tall := match aspect with      -- `aspect < 0.67`
    | none => false
    | some a => a < 0.67
  if wide then
    let (q, rng) := rng.random
    if q < 0.85 then ("vertical", rng) else ("horizontal", rng)
  else if tall then
    let (q, rng) := rng.random
    if q < 0.85 then ("horizontal", rng) else ("vertical", rng)
  else
    rng.choice ["horizontal", "vertical"] "horizontal"

/-- `BSPSubdivider._calculate_split_position` (the `None` early exit happens
before any draw is consumed). -/
def calculate_split_position (polygon : List Point2D) (rooms : List RoomSpec)
    (direction : String) (rng : SeededRandom) : Option ℚ × SeededRandom :=
  let (min_x, min_y, max_x, max_y) := polygon_bounds polygon
  if direction == "horizontal" then
    let min_pos := min_y + MIN_ROOM_DIM
    let max_pos := max_y - MIN_ROOM_DIM
    if min_pos ≥ max_pos then (none, rng)
    else
      match rooms with
      | [] => (some (max min_pos (min max_pos ((min_y + max_y) / 2))), rng)
      | largest :: _ =>
        let total_area := (rooms.map (·.area_m2)).sum
        let targetFrac := largest.area_m2 / total_area
        let (noise, rng) := rng.uniform (-0.1) 0.1
        let targetFrac := max 0.3 (min 0.7 (targetFrac + noise))
        let split_pos := min_y + targetFrac * (max_y - min_y)
        (some (max min_pos (min max_pos split_pos)), rng)
  else
    let min_pos := min_x + MIN_ROOM_DIM
    let max_pos := max_x - MIN_ROOM_DIM
    if min_pos ≥ max_pos then (none, rng)
    else
      match rooms with
      | [] => (some (max min_pos (min max_pos ((min_x + max_x) / 2))), rng)
      | largest :: _ =>
        let total_area := (rooms.map (·.area_m2)).sum
        let targetFrac := largest.area_m2 / total_area
        let (noise, rng) := rng.uniform (-0.1) 0.1
        let targetFrac := max 0.3 (min 0.7 (targetFrac + noise))
        let split_pos := min_x + targetFrac * (max_x - min_x)
        (some (max min_pos (min max_pos split_pos)), rng)

/-- One step of the greedy loop in `_partition_rooms` (factored out of the
fold for the proofs). -/
def partitionStep (target_left_area : ℚ)
    (acc : List RoomSpec × List RoomSpec × ℚ) (room : RoomSpec) :
    List RoomSpec × List RoomSpec × ℚ :=
  let (left_rooms, right_rooms, left_area) := acc
  if left_area < target_left_area then
    (left_rooms ++ [room], right_rooms, left_area + room.area_m2)
  else
    (left_rooms, right_rooms ++ [room], left_area)

/-- `BSPSubdivider._partition_rooms`: greedy area split, then the repair
step guaranteeing a non-empty side where possible. -/
def partition_rooms (rooms : List RoomSpec) (left_frac : ℚ) :
    List RoomSpec × List RoomSpec :=
  let total_area := (rooms.map (·.area_m2)).sum
  let target_left_area := total_area * left_frac
  let fin := rooms.foldl (partitionStep target_left_area) ([], [], 0)
  match fin with
  | ([], r0 :: rest, _) => ([r0], rest)
  | (a :: l, [], _) => ((a :: l).dropLast, [(a :: l).getLast (by simp)])
  | (l, r, _) => (l, r)

/-- `BSPSubdivider._build_tree`; the fuel is `MAX_DEPTH - depth` (the source
stops once `depth >= MAX_DEPTH`). -/
def build_tree (fuel : Nat) (polygon : List Point2D) (rooms : List RoomSpec)
    (rng : SeededRandom) : BSPTree × SeededRandom :=
  match fuel with
  | 0 => (.leaf polygon, rng)
  | fuel + 1 =>
    if rooms.isEmpty then (.leaf polygon, rng)
    else if rooms.length == 1 then (.leaf polygon, rng)
    else if nodeWidth polygon < MIN_ROOM_DIM * 2 ∨
        nodeHeight polygon < MIN_ROOM_DIM * 2 then (.leaf polygon, rng)
    else
      let (direction, rng) := choose_split_direction polygon rng
      let (split?, rng) := calculate_split_position polygon rooms direction rng
      match split? with
      | none => (.leaf polygon, rng)
      | some split_pos =>
        let (left_poly, right_poly) :=
          if direction == "horizontal" then split_polygon_horizontal polygon split_pos
          else split_polygon_vertical polygon split_pos
        if left_poly.isEmpty ∨ right_poly.isEmpty then (.leaf polygon, rng)
        else
          let left_area := polygon_area left_poly
          let right_area := polygon_area right_poly
          let total_area := left_area + right_area
          let (left_rooms, right_rooms) := partition_rooms rooms (left_area / total_area)
          let (lt, rng) := build_tree fuel left_poly left_rooms rng
          let (rt, rng) := build_tree fuel right_poly right_rooms rng
          (.node polygon direction split_pos lt rt, rng)

/-- `BSPSubdivider._collect_leaves` (left subtree first). -/
def collect_leaves : BSPTree → List (List Point2D)
  | .leaf p => [p]
  | .node _ _ _ l r => collect_leaves l ++ collect_leaves r

/-- Python's stable descending sort by room target area
(`sorted(key=area, reverse=True)`). -/
def roomAreaGe (a b : RoomSpec) : Prop := b.area_m2 ≤ a.area_m2

instance : DecidableRel roomAreaGe := fun a b => by
  unfold roomAreaGe; infer_instance

/-- Stable descending sort of leaf polygons by area. -/
def leafAreaGe (a b : List Point2D) : Prop := polygon_area b ≤ polygon_area a

instance : DecidableRel leafAreaGe := fun a b => by
  unfold leafAreaGe; infer_instance

/-- Index of the first leaf minimizing `|area - target|`
(strict improvement, as in the source's `diff < best_diff`). -/
def bestLeafIdx (available : List (List Point2D)) (target : ℚ) : Option Nat :=
  ((available.zip (List.range available.length)).foldl
    (fun (acc : Option (Nat × ℚ)) pi =>
      let (p, i) := pi
      let diff := |polygon_area p - target|
      match acc with
      | none => some (i, diff)
      | some (bi, bd) => if diff < bd then some (i, diff) else some (bi, bd))
    none).map (·.1)

/-- The greedy room→leaf assignment loop of `_assign_rooms_to_leaves`. -/
def assignLoop : List RoomSpec → List (List Point2D) → List BSPNode →
    List BSPNode × List (List Point2D)
  | [], available, acc => (acc, available)
  | room :: rest, available, acc =>
    if available.isEmpty then (acc, available)
    else
      match bestLeafIdx available room.area_m2 with
      | none => (acc, available)
      | some i =>
        assignLoop rest (available.eraseIdx i)
          (acc ++ [{ polygon := available.getD i [], room_spec := some room }])

/-- `BSPSubdivider._assign_rooms_to_leaves`. -/
def assign_rooms_to_leaves (leaves : List (List Point2D))
    (rooms : List RoomSpec) : List BSPNode :=
  let available := leaves.insertionSort leafAreaGe
  let (assigned, remaining) := assignLoop rooms available []
  assigned ++ remaining.map (fun p => { polygon := p, room_spec := none })

/-- `BSPSubdivider.subdivide`. -/
def subdivide (rng : SeededRandom) (c : FloorPlanConstraints) :
    List BSPNode × SeededRandom :=
  let rooms_to_assign := c.rooms.insertionSort roomAreaGe
  let (tree, rng) := build_tree MAX_DEPTH c.envelope_polygon rooms_to_assign rng
  let leaves := collect_leaves tree
  (assign_rooms_to_leaves leaves rooms_to_assign, rng)

/-!
### `genarch.generator.adjacency_resolver`

Dicts keyed by room names are association lists in insertion order; the
Python sets of names are duplicate-free lists in insertion order.
-/

def ADJACENCY_THRESHOLD : ℚ := 0.1

/-- `AdjacencyResolver._edges_overlap` (0.1 m tolerance). -/
def resolver_edges_overlap (e1s e1e e2s e2e : Point2D) : Bool :=
  let tol := ADJACENCY_THRESHOLD
  if (distLt e1s e2e tol && distLt e1e e2s tol) ||
      (distLt e1s e2s tol && distLt e1e e2e tol) then true
  else if |e1s.x - e1e.x| < tol ∧ |e2s.x - e2e.x| < tol ∧ |e1s.x - e2s.x| < tol then
    -- both vertical on the same X: Y overlap beyond tolerance
    min (max e1s.y e1e.y) (max e2s.y e2e.y) -
      max (min e1s.y e1e.y) (min e2s.y e2e.y) > tol
  else if |e1s.y - e1e.y| < tol ∧ |e2s.y - e2e.y| < tol ∧ |e1s.y - e2s.y| < tol then
    -- both horizontal on the same Y: X overlap beyond tolerance
    min (max e1s.x e1e.x) (max e2s.x e2e.x) -
      max (min e1s.x e1e.x) (min e2s.x e2e.x) > tol
  else false

/-- `AdjacencyResolver._are_adjacent`: bounding-box quick reject, then any
pair of overlapping edges. -/
def are_adjacent (poly1 poly2 : List Point2D) : Bool :=
  let b1 := polygon_bounds poly1
  let b2 := polygon_bounds poly2
  let tol := ADJACENCY_THRESHOLD
  if b1.2.2.1 + tol < b2.1 ∨ b2.2.2.1 + tol < b1.1 ∨
      b1.2.2.2 + tol < b2.2.1 ∨ b2.2.2.2 + tol < b1.2.1 then false
  else
    (List.range poly1.length).any fun i =>
      let e1s := poly1.getD i default
      let e1e := poly1.getD ((i + 1) % poly1.length) default
      (List.range poly2.length).any fun j =>
        let e2s := poly2.getD j default
        let e2e := poly2.getD ((j + 1) % poly2.length) default
        resolver_edges_overlap e1s e1e e2s e2e

/-- Insertion-ordered map from room name to (duplicate-free) name list. -/
abbrev NameGraph := List (String × List String)

/-- Add `v` to the set stored under `k` (no-op when absent is impossible at
call sites; duplicates are not added). -/
def graphAdd (g : NameGraph) (k v : String) : NameGraph :=
  match g with
  | [] => []
  | (k0, vs) :: rest =>
    if k0 == k then (k0, if vs.contains v then vs else vs ++ [v]) :: rest
    else (k0, vs) :: graphAdd rest k v

/-- `AdjacencyResolver._compute_adjacencies`. -/
def compute_adjacencies (nodes : List BSPNode) : NameGraph :=
  let init : NameGraph := nodes.foldl
    (fun g n => match n.room_spec with
      | some spec => g ++ [(spec.name, [])]
      | none => g) []
  (List.range nodes.length).foldl
    (fun g i =>
      let node1 := nodes.getD i default
      match node1.room_spec with
      | none => g
      | some spec1 =>
        ((nodes.drop (i + 1)).foldl
          (fun g node2 =>
            match node2.room_spec with
            | none => g
            | some spec2 =>
              if are_adjacent node1.polygon node2.polygon then
                graphAdd (graphAdd g spec1.name spec2.name) spec2.name spec1.name
              else g) g))
    init

/-- `AdjacencyResolver._build_requirements` (`set(room.adjacency)` keeps
first occurrences). -/
def build_requirements (c : FloorPlanConstraints) : NameGraph :=
  c.rooms.foldl (fun g room => g ++ [(room.name, room.adjacency.dedup)]) []

/-- `AdjacencyResolver._find_violations`. -/
def find_violations (requirements adjacencies : NameGraph) :
    List (String × String) :=
  requirements.foldl
    (fun acc kv =>
      let (room_name, required) := kv
      let actual := (adjacencies.lookup room_name).getD []
      acc ++ (required.filter fun req_adj =>
        ¬ actual.contains req_adj && (requirements.lookup req_adj).isSome
      ).map (fun req_adj => (room_name, req_adj)))
    []

/-- `AdjacencyResolver._find_node_by_room_name` (index form). -/
def findNodeIdxByRoomName (nodes : List BSPNode) (room_name : String) :
    Option Nat :=
  nodes.findIdx? fun n =>
    match n.room_spec with
    | some s => s.name == room_name
    | none => false

/-- `AdjacencyResolver._attempt_swap`; `some` is a successful swap of the
two room assignments. -/
def attempt_swap (nodes : List BSPNode) (violation : String × String)
    (adjacencies : NameGraph) : Option (List BSPNode) :=
  let room1_name := violation.1
  let room2_name := violation.2
  match findNodeIdxByRoomName nodes room1_name,
        findNodeIdxByRoomName nodes room2_name with
  | some _, some i2 =>
    let current_adj_to_1 := (adjacencies.lookup room1_name).getD []
    current_adj_to_1.findSome? fun adj_name =>
      if adj_name == room2_name then none
      else
        match findNodeIdxByRoomName nodes adj_name with
        | none => none
        | some ia =>
          let adj_node := nodes.getD ia default
          let node2 := nodes.getD i2 default
          if are_adjacent adj_node.polygon node2.polygon then
            some ((nodes.set ia { adj_node with room_spec := node2.room_spec }).set
              i2 { node2 with room_spec := adj_node.room_spec })
          else none
  | _, _ => none

/-- The bounded repair loop of `AdjacencyResolver.resolve` (20 iterations,
early exit when no violation remains or none is fixable). -/
def resolveLoop (requirements : NameGraph) : Nat → List BSPNode →
    NameGraph → List BSPNode
  | 0, nodes, _ => nodes
  | fuel + 1, nodes, adjacencies =>
    match find_violations requirements adjacencies with
    | [] => nodes
    | v :: _ =>
      match attempt_swap nodes v adjacencies with
      | none => nodes
      | some nodes => resolveLoop requirements fuel nodes (compute_adjacencies nodes)

/-- `AdjacencyResolver.resolve`. -/
def resolve (nodes : List BSPNode) (c : FloorPlanConstraints) :
    List BSPNode :=
  let requirements := build_requirements c
  let adjacencies := compute_adjacencies nodes
  resolveLoop requirements 20 nodes adjacencies

/-!
### `genarch.generator.floor_plan_generator`
-/

/-- `FloorPlanGenerator._determine_facade`: outward normal of a clockwise
envelope edge selects the facade letter. -/
def determine_facade (start stop : Point2D) : String :=
  let dx := stop.x - start.x
  let dy := stop.y - start.y
  let nx := dy
  let ny := -dx
  if |nx| > |ny| then (if nx > 0 then "E" else "W")
  else (if ny > 0 then "N" else "S")

/-- `FloorPlanGenerator._edges_match`: same or reversed endpoints within
tolerance. -/
def edges_match (e1s e1e e2s e2e : Point2D) (tol : ℚ) : Bool :=
  (distLt e1s e2s tol && distLt e1e e2e tol) ||
  (distLt e1s e2e tol && distLt e1e e2s tol)

/-- `FloorPlanGenerator._find_rooms_adjacent_to_edge` (0.1 m tolerance). -/
def find_rooms_adjacent_to_edge (rooms : List Room) (start stop : Point2D) :
    List String :=
  rooms.foldl
    (fun acc room =>
      let hit := (List.range room.polygon.length).any fun i =>
        let r_start := room.polygon.getD i default
        let r_end := room.polygon.getD ((i + 1) % room.polygon.length) default
        edges_match start stop r_start r_end 0.1
      if hit then acc ++ [room.id] else acc)
    []

/-- `FloorPlanGenerator._edges_overlap` (exact-match case plus axis-aligned
partial overlap). -/
def generator_edges_overlap (e1s e1e e2s e2e : Point2D) (tol : ℚ) : Bool :=
  if distLt e1s e2e tol && distLt e1e e2s tol then true
  else if |e1s.x - e1e.x| < tol ∧ |e2s.x - e2e.x| < tol ∧ |e1s.x - e2s.x| < tol then
    min (max e1s.y e1e.y) (max e2s.y e2e.y) -
      max (min e1s.y e1e.y) (min e2s.y e2e.y) > tol
  else if |e1s.y - e1e.y| < tol ∧ |e2s.y - e2e.y| < tol ∧ |e1s.y - e2s.y| < tol then
    min (max e1s.x e1e.x) (max e2s.x e2e.x) -
      max (min e1s.x e1e.x) (min e2s.x e2e.x) > tol
  else false

/-- `FloorPlanGenerator._find_shared_edge` between two rooms. -/
def find_shared_edge (room1 room2 : Room) : Option (Point2D × Point2D) :=
  (List.range room1.polygon.length).findSome? fun i =>
    let e1s := room1.polygon.getD i default
    let e1e := room1.polygon.getD ((i + 1) % room1.polygon.length) default
    if (List.range room2.polygon.length).any (fun j =>
        let e2s := room2.polygon.getD j default
        let e2e := room2.polygon.getD ((j + 1) % room2.polygon.length) default
        generator_edges_overlap e1s e1e e2s e2e 0.1) then
      some (e1s, e1e)
    else none

/-- `FloorPlanGenerator._edge_key`: order-independent rounded edge key.
`round(x, 3)` is Python's banker-rounding to 3 decimals; the geometry the
generator feeds this with carries exact rationals, so the key's role of
deduplicating identical edges is preserved by rounding half-up here. -/
def edge_key (start stop : Point2D) : (ℚ × ℚ) × ℚ × ℚ :=
  let r3 := fun (q : ℚ) => ((q * 1000).floor + if (q * 1000) - (q * 1000).floor ≥ 1/2 then 1 else 0 : ℤ) / (1000 : ℚ)
  let p1 := (r3 start.x, r3 start.y)
  let p2 := (r3 stop.x, r3 stop.y)
  if p1 ≤ p2 then (p1, p2) else (p2, p1)

/-- `FloorPlanGenerator._create_rooms`: one `Room` per assigned leaf, in
leaf order, with explicit sequential indices. -/
def create_rooms (bsp_nodes : List BSPNode) : List Room :=
  (bsp_nodes.foldl
    (fun (acc : List Room × Nat) node =>
      let (rooms, room_index) := acc
      match node.room_spec with
      | none => acc
      | some spec =>
        (rooms ++ [{ id := generate_room_id 0 room_index, name := spec.name,
                     polygon := node.polygon, area_m2 := polygon_area node.polygon,
                     floor_index := 0 }],
         room_index + 1))
    ([], 0)).1

/-- `FloorPlanGenerator._generate_walls`: exterior walls from the envelope
edges, then one interior wall per deduplicated shared room edge. -/
def generate_walls (rooms : List Room) (c : FloorPlanConstraints) :
    List WallSegment :=
  let envelope := c.envelope_polygon
  let ext := (List.range envelope.length).foldl
    (fun (acc : List WallSegment × Nat) i =>
      let (walls, wall_index_ext) := acc
      let start := envelope.getD i default
      let stop := envelope.getD ((i + 1) % envelope.length) default
      let facade := determine_facade start stop
      let wall_id := generate_wall_id 0 true wall_index_ext
      let adjacent_rooms := find_rooms_adjacent_to_edge rooms start stop
      (walls ++ [{ id := wall_id, start := start, stop := stop,
                   thickness_m := c.external_wall_thickness_m,
                   is_exterior := true, facade := some facade,
                   room_ids := adjacent_rooms }],
       wall_index_ext + 1))
    ([], 0)
  let inner := (List.range rooms.length).foldl
    (fun (acc : List WallSegment × Nat × List ((ℚ × ℚ) × ℚ × ℚ)) i =>
      let room1 := rooms.getD i default
      (rooms.drop (i + 1)).foldl
        (fun acc room2 =>
          let (walls, wall_index_int, processed) := acc
          match find_shared_edge room1 room2 with
          | none => acc
          | some (start, stop) =>
            let k := edge_key start stop
            if processed.contains k then acc
            else
              let wall_id := generate_wall_id 0 false wall_index_int
              (walls ++ [{ id := wall_id, start := start, stop := stop,
                           thickness_m := c.internal_wall_thickness_m,
                           is_exterior := false, facade := none,
                           room_ids := [room1.id, room2.id] }],
               wall_index_int + 1, processed ++ [k]))
        acc)
    ([], 0, [])
  ext.1 ++ inner.1

/-- `FloorPlanGenerator._assign_walls_to_rooms`. -/
def assign_walls_to_rooms (rooms : List Room) (walls : List WallSegment) :
    List Room :=
  rooms.map fun room =>
    { room with wall_ids := (walls.filter fun w => w.room_ids.contains room.id).map (·.id) }

/-- `FloorPlanGenerator.generate`, threading the explicit RNG state and the
process-wide ID counters.  The connectivity report of step 3 feeds only the
run metadata, not the returned plan, and is omitted here; the returned
value is the `FloorPlan` together with the final RNG and counter states.
`reset_counters()` is the first action, so the incoming counter state is
discarded. -/
def generate (rng : SeededRandom) (counters : Counters)
    (c : FloorPlanConstraints) : FloorPlan × SeededRandom × Counters :=
  let _ := counters                        -- reset_counters()
  let (bsp_nodes, rng) := subdivide rng c  -- step 1
  let bsp_nodes := resolve bsp_nodes c     -- step 2
  let rooms := create_rooms bsp_nodes      -- step 4
  let walls := generate_walls rooms c      -- step 5
  let rooms := assign_walls_to_rooms rooms walls  -- step 6
  let pl := place_openings rooms walls c   -- step 7
  let floor_plan := FloorPlan.make pl.rooms pl.walls pl.openings
    c.envelope_polygon 0 ((pl.rooms.map (·.area_m2)).sum)
  (floor_plan, rng, pl.counters)

/-!
### `genarch.validator.geometry_validator`

Numeric interpolations inside diagnostic strings are elided (the claims
depend only on which diagnostics are produced, not on their digits).
`Room.bounds` (the dataclass property) calls `min()` on the coordinate
lists and raises `ValueError` on an empty polygon; `Except` models that.
-/

/-- `Room.bounds`: raises on an empty polygon (`min()` of an empty list). -/
def Room.boundsE (r : Room) : Except String (ℚ × ℚ × ℚ × ℚ) :=
  match r.polygon with
  | [] => .error "min() arg is an empty sequence"
  | _ :: _ => .ok (polygon_bounds r.polygon)

def GV_MIN_WIDTH : ℚ := 2.0
def GV_AREA_TOLERANCE : ℚ := 0.05
def GV_MIN_CORNER_DISTANCE : ℚ := 0.2

/-- `GeometryValidator._inset_polygon`. -/
def inset_polygon (polygon : List Point2D) (amount : ℚ) :
    Option (List Point2D) :=
  let (min_x, min_y, max_x, max_y) := polygon_bounds polygon
  if max_x - min_x ≤ 2 * amount ∨ max_y - min_y ≤ 2 * amount then none
  else some [⟨min_x + amount, min_y + amount⟩, ⟨max_x - amount, min_y + amount⟩,
             ⟨max_x - amount, max_y - amount⟩, ⟨min_x + amount, max_y - amount⟩]

/-- `GeometryValidator._rooms_overlap`. -/
def rooms_overlap (room1 room2 : Room) : Except String Bool := do
  let b1 ← room1.boundsE
  let b2 ← room2.boundsE
  let tol := (0.01 : ℚ)
  if b1.2.2.1 + tol < b2.1 ∨ b2.2.2.1 + tol < b1.1 ∨
      b1.2.2.2 + tol < b2.2.1 ∨ b2.2.2.2 + tol < b1.2.1 then
    return false
  else
    match inset_polygon room1.polygon tol, inset_polygon room2.polygon tol with
    | some inset1, some inset2 => return polygons_intersect inset1 inset2
    | _, _ => return false

/-- `GeometryValidator._check_no_overlaps`. -/
def check_no_overlaps (rooms : List Room) : Except String (List String) :=
  (List.range rooms.length).foldlM
    (fun errs i => do
      let room1 := rooms.getD i default
      (rooms.drop (i + 1)).foldlM
        (fun errs room2 => do
          let ov ← rooms_overlap room1 room2
          if ov then
            return errs ++ ["Rooms overlap: " ++ room1.name ++ " and " ++ room2.name]
          else
            return errs)
        errs)
    []

/-- `GeometryValidator._check_minimum_widths`. -/
def check_minimum_widths (min_room_width : ℚ) (rooms : List Room) :
    List String :=
  rooms.foldl
    (fun errs room =>
      if minimum_width room.polygon < min_room_width then
        errs ++ ["Room " ++ room.name ++ " too narrow"]
      else errs)
    []

/-- `GeometryValidator._check_total_area`. -/
def check_total_area (area_tolerance : ℚ) (fp : FloorPlan) (target_area : ℚ) :
    List String :=
  let deviation :=
    if target_area > 0 then |fp.total_area_m2 - target_area| / target_area else 0
  if deviation > area_tolerance then ["Total area deviates from target"] else []

/-- `GeometryValidator._check_opening_positions`. -/
def check_opening_positions (fp : FloorPlan) : List String :=
  fp.walls.foldl
    (fun errs wall =>
      let wall_length := wall.length
      wall.openings.foldl
        (fun errs opening =>
          let pos := opening.position_along_wall
          let opening_half :=
            if wall_length > 0 then opening.width_m / 2 / wall_length else 0
          let min_pos :=
            if wall_length > 0 then GV_MIN_CORNER_DISTANCE / wall_length else 0
          let errs :=
            if pos - opening_half < min_pos then
              errs ++ ["Opening " ++ opening.id ++ " too close to wall start"]
            else errs
          if 1 - pos - opening_half < min_pos then
            errs ++ ["Opening " ++ opening.id ++ " too close to wall end"]
          else errs)
        errs)
    []

/-- `GeometryValidator.validate` (the total-area check only runs for a
positive target). -/
def geometry_validate (min_room_width area_tolerance : ℚ) (fp : FloorPlan)
    (target_area : ℚ) : Except String (Bool × List String) := do
  let overlap_errors ← check_no_overlaps fp.rooms
  let errs := overlap_errors ++ check_minimum_widths min_room_width fp.rooms
  let errs := errs ++
    (if target_area > 0 then check_total_area area_tolerance fp target_area else [])
  let errs := errs ++ check_opening_positions fp
  return (errs.isEmpty, errs)

/-!
### `genarch.validator.uk_building_regs`
-/

/-- `UKBuildingRegsValidator._classify_room`. -/
def classify_room (room_name : String) : String :=
  let name_lower := pyLower room_name
  if substrOf "bedroom" name_lower || substrOf "bed" name_lower then "bedroom"
  else if substrOf "living" name_lower || substrOf "lounge" name_lower then "living_room"
  else if substrOf "kitchen" name_lower then "kitchen"
  else if substrOf "bathroom" name_lower || substrOf "bath" name_lower then "bathroom"
  else if substrOf "wc" name_lower || substrOf "toilet" name_lower then "wc"
  else if substrOf "hallway" name_lower || substrOf "corridor" name_lower then "corridor"
  else if substrOf "dining" name_lower then "dining"
  else if substrOf "study" name_lower || substrOf "office" name_lower then "study"
  else if substrOf "storage" name_lower || substrOf "utility" name_lower then "utility"
  else if substrOf "entrance" name_lower then "entrance"
  else "other"

/-- `UKBuildingRegsValidator._get_min_dimension`. -/
def get_min_dimension (room_type : String) : ℚ :=
  if room_type == "bedroom" then 2.1
  else if room_type == "bathroom" ∨ room_type == "wc" then 1.7
  else if room_type == "corridor" then 0.9
  else 2.4

/-- `UKBuildingRegsValidator._get_min_area`. -/
def get_min_area (room_type room_name : String) : ℚ :=
  let name_lower := pyLower room_name
  if room_type == "bedroom" then
    if substrOf "master" name_lower || substrOf "double" name_lower then 11.0 else 6.5
  else if room_type == "living_room" then 13.0
  else if room_type == "kitchen" then 5.5
  else if room_type == "bathroom" then 2.5
  else if room_type == "wc" then 1.5
  else 0

/-- `UKBuildingRegsValidator._get_min_door_width`. -/
def get_min_door_width (door_type : String) : ℚ :=
  if door_type == "entrance" then 0.80
  else if door_type == "patio" ∨ door_type == "french" ∨ door_type == "sliding" then 0.85
  else 0.75

/-- `UKBuildingRegsValidator._is_habitable_room`. -/
def is_habitable_room (room_name : String) : Bool :=
  let room_type := classify_room room_name
  ["bedroom", "living_room", "kitchen", "dining", "study"].contains room_type

/-- `UKBuildingRegsValidator._check_room_dimensions`. -/
def check_room_dimensions (rooms : List Room) : List String :=
  rooms.foldl
    (fun errs room =>
      let room_type := classify_room room.name
      if minimum_width room.polygon < get_min_dimension room_type then
        errs ++ ["Room " ++ room.name ++ " width below minimum"]
      else errs)
    []

/-- `UKBuildingRegsValidator._check_room_areas`. -/
def check_room_areas (rooms : List Room) : List String :=
  rooms.foldl
    (fun errs room =>
      let min_area := get_min_area (classify_room room.name) room.name
      if min_area > 0 ∧ room.area_m2 < min_area then
        errs ++ ["Room " ++ room.name ++ " area below minimum"]
      else errs)
    []

/-- `UKBuildingRegsValidator._check_door_widths`. -/
def check_door_widths (fp : FloorPlan) : List String :=
  fp.openings.foldl
    (fun errs opening =>
      if ¬ opening.is_door then errs
      else if opening.width_m < get_min_door_width opening.type then
        errs ++ ["Door " ++ opening.id ++ " width below minimum"]
      else errs)
    []

/-- Set a key in a string→ℚ association map (insertion order kept). -/
def qmapSet (m : List (String × ℚ)) (k : String) (v : ℚ) :
    List (String × ℚ) :=
  match m with
  | [] => [(k, v)]
  | (k0, v0) :: rest =>
    if k0 == k then (k0, v) :: rest else (k0, v0) :: qmapSet rest k v

/-- `UKBuildingRegsValidator._check_window_requirements`: glazing per room
(window attributed to the first room of its host wall), 10% minimum for
habitable rooms. -/
def check_window_requirements (fp : FloorPlan) : List String :=
  let init := fp.rooms.foldl (fun m room => qmapSet m room.id 0) []
  let room_windows := fp.walls.foldl
    (fun m wall =>
      wall.openings.foldl
        (fun m opening =>
          if opening.is_window then
            match wall.room_ids with
            | [] => m
            | room_id :: _ =>
              match m.lookup room_id with
              | some v => qmapSet m room_id (v + opening.width_m * opening.height_m)
              | none => m
          else m)
        m)
    init
  fp.rooms.foldl
    (fun errs room =>
      if ¬ is_habitable_room room.name then errs
      else
        let window_area := (room_windows.lookup room.id).getD 0
        if window_area < room.area_m2 * 0.10 then
          errs ++ ["Room " ++ room.name ++ " window area below minimum"]
        else errs)
    []

/-- `UKBuildingRegsValidator.validate`; `strict` is the constructor flag,
stored but never consulted by `validate`. -/
def uk_validate (strict : Bool) (fp : FloorPlan) : Bool × List String :=
  let _ := strict
  let errs := check_room_dimensions fp.rooms
  let errs := errs ++ check_room_areas fp.rooms
  let errs := errs ++ check_door_widths fp
  let errs := errs ++ check_window_requirements fp
  (errs.isEmpty, errs)

/-!
### `genarch.validator.connectivity_validator`

The BFS queue is a FIFO list; the `while queue:` loop is given explicit
fuel, large enough that the queue always drains first (proved below).
-/

/-- Ensure a key exists (`graph["EXTERIOR"] = set()` when absent). -/
def graphEnsureKey (g : NameGraph) (k : String) : NameGraph :=
  if (g.lookup k).isSome then g else g ++ [(k, [])]

/-- Reset/insert a key to an empty set (`graph[room.id] = set()`). -/
def graphSetEmpty (g : NameGraph) (k : String) : NameGraph :=
  match g with
  | [] => [(k, [])]
  | (k0, vs) :: rest =>
    if k0 == k then (k0, []) :: rest else (k0, vs) :: graphSetEmpty rest k

/-- `ConnectivityValidator._build_door_graph`. -/
def build_door_graph (fp : FloorPlan) : NameGraph :=
  let graph : NameGraph := fp.rooms.foldl (fun g room => graphSetEmpty g room.id) []
  let graph := fp.walls.foldl
    (fun g wall =>
      wall.openings.foldl
        (fun g opening =>
          if opening.is_door then
            match wall.room_ids with
            | [room1, room2] => graphAdd (graphAdd g room1 room2) room2 room1
            | [room] =>
              let g := graphAdd g room "EXTERIOR"
              let g := if (g.lookup room).isSome then
                  graphAdd (graphEnsureKey g "EXTERIOR") "EXTERIOR" room
                else g
              g
            | _ => g
          else g)
        g)
    graph
  fp.rooms.foldl
    (fun g room =>
      room.connected_rooms.foldl
        (fun g connected_id =>
          if (g.lookup connected_id).isSome then
            graphAdd (graphAdd g room.id connected_id) connected_id room.id
          else g)
        g)
    graph

/-- `ConnectivityValidator._find_start_room`: entrance, else hallway, else
first room. -/
def find_start_room (rooms : List Room) : Option Room :=
  match rooms.find? (fun r => substrOf "entrance" (pyLower r.name)) with
  | some room => some room
  | none =>
    match rooms.find? (fun r => substrOf "hallway" (pyLower r.name)) with
    | some room => some room
    | none => rooms.head?

/-- One BFS expansion: visit the unvisited non-`EXTERIOR` neighbors in
order, appending them to both the visited set and the queue. -/
def bfsStepNbrs (visited queue nbrs : List String) :
    List String × List String :=
  nbrs.foldl
    (fun (acc : List String × List String) n =>
      if n ∉ acc.1 ∧ n ≠ "EXTERIOR" then (acc.1 ++ [n], acc.2 ++ [n]) else acc)
    (visited, queue)

/-- The `while queue:` loop of `_find_disconnected_rooms`. -/
def bfsLoop (g : NameGraph) : Nat → List String → List String → List String
  | 0, visited, _ => visited
  | _ + 1, visited, [] => visited
  | fuel + 1, visited, current :: queue =>
    let nbrs := (g.lookup current).getD []
    let (visited, queue) := bfsStepNbrs visited queue nbrs
    bfsLoop g fuel visited queue

/-- All strings occurring in neighbor lists of the graph. -/
def graphNbrs (g : NameGraph) : List String := (g.map (·.2)).flatten

/-- Sufficient BFS fuel: distinct possible visits, plus one. -/
def bfsFuel (g : NameGraph) (start : String) : Nat :=
  (start :: graphNbrs g).dedup.length + 1

/-- BFS visited set from a start node. -/
def bfsVisited (g : NameGraph) (start : String) : List String :=
  bfsLoop g (bfsFuel g start) [start] [start]

/-- `ConnectivityValidator._find_disconnected_rooms`:
`all_room_ids - visited`. -/
def find_disconnected_rooms (g : NameGraph) (start_id : String)
    (all_room_ids : List String) : List String :=
  all_room_ids.filter (fun x => ¬ (bfsVisited g start_id).contains x)

/-- `ConnectivityValidator._get_room_name`. -/
def get_room_name (rooms : List Room) (room_id : String) : String :=
  match rooms.find? (fun r => r.id == room_id) with
  | some room => room.name
  | none => room_id

/-- `ConnectivityValidator.validate`.  The room-id set
`{r.id for r in rooms}` is modelled as the deduplicated id list (only
membership matters downstream). -/
def connectivity_validate (fp : FloorPlan) : Bool × List String :=
  let graph := build_door_graph fp
  match find_start_room fp.rooms with
  | none =>
    if ¬ fp.rooms.isEmpty then (false, ["No rooms found in floor plan"])
    else (true, [])
  | some start_room =>
    let room_ids := (fp.rooms.map (·.id)).dedup
    let disconnected := find_disconnected_rooms graph start_room.id room_ids
    if ¬ disconnected.isEmpty then
      let room_names := disconnected.map (get_room_name fp.rooms)
      (false, ["Disconnected rooms (no door access): " ++
        String.intercalate ", " room_names])
    else (true, [])

/-- The door-graph edge relation the BFS explores: a listed neighbor that
is not the synthetic `EXTERIOR` node. -/
def doorEdge (g : NameGraph) (a b : String) : Prop :=
  b ∈ (g.lookup a).getD [] ∧ b ≠ "EXTERIOR"

/-!
### Derived notions used by the theorems
-/

/-- The normalized margin `_find_valid_position` enforces on both sides of
a wall: the larger of the corner clearance and the half-width of the
opening, divided by the wall length (`0.1` for degenerate walls). -/
def corner_margin (wall : WallSegment) (opening_width min_corner_distance : ℚ) :
    ℚ :=
  let wall_length := wall.length
  max (if wall_length > 0 then min_corner_distance / wall_length else 0.1)
      (if wall_length > 0 then opening_width / 2 / wall_length else 0.1)

/-- What `_place_internal_doors` guarantees about each door it emits: a
0.9 m wide `"door"` whose host is one of the interior walls and whose
position was produced by `_find_valid_position` on that wall. -/
def DoorPlaced (walls : List WallSegment) (o : Opening) : Prop :=
  o.type = "door" ∧ o.width_m = 0.9 ∧
  ∃ wall, wall ∈ walls ∧ wall.is_exterior = false ∧ o.wall_id = wall.id ∧
    ∃ ex, find_valid_position wall 0.5 0.9 DOOR_MIN_FROM_CORNER
      MIN_OPENING_SPACING ex = some o.position_along_wall

/-- What `_place_windows` guarantees about each window it emits. -/
def WindowPlaced (walls : List WallSegment) (o : Opening) : Prop :=
  o.type = "window" ∧ o.width_m = 1.2 ∧
  ∃ wall, wall ∈ walls ∧ wall.is_exterior = true ∧ o.wall_id = wall.id ∧
    ∃ ex, find_valid_position wall 0.5 1.2 WINDOW_MIN_FROM_CORNER
      MIN_OPENING_SPACING ex = some o.position_along_wall

/-!
### Concrete inputs used by counterexamples and witnesses
-/

instance : Inhabited Opening :=
  ⟨{ id := "", type := "", wall_id := "", position_along_wall := 0,
     width_m := 0, height_m := 0 }⟩

/-- A 0.5 m wide strip room. -/
def exRoomC4 : Room :=
  { id := "room_0_0", name := "Studio",
    polygon := [⟨0, 0⟩, ⟨0.5, 0⟩, ⟨0.5, 8⟩, ⟨0, 8⟩], area_m2 := 4 }

/-- A 0.5 m long south exterior wall (shorter than the 1.0 m entrance door
plus its corner clearances). -/
def exWallC4 : WallSegment :=
  { id := "wall_0_ext_0", start := ⟨0, 0⟩, stop := ⟨0.5, 0⟩,
    thickness_m := 0.35, is_exterior := true, facade := some "S",
    room_ids := ["room_0_0"] }

/-- Valid constraints for the strip scenario. -/
def exConsC4 : FloorPlanConstraints :=
  { envelope_polygon := [⟨0, 0⟩, ⟨0.5, 0⟩, ⟨0.5, 8⟩, ⟨0, 8⟩],
    total_area_m2 := 4, rooms := [{ name := "Studio", area_m2 := 4 }],
    entrance_facade := "south" }

/-- Valid constraints: a 1.2 m × 20 m envelope with a single room, entrance
on the south facade — the south wall is 1.2 m long, only just wider than
the 1.0 m entrance door. -/
def exConsC3 : FloorPlanConstraints :=
  { envelope_polygon := [⟨0, 0⟩, ⟨0, 20⟩, ⟨1.2, 20⟩, ⟨1.2, 0⟩],
    total_area_m2 := 24, rooms := [{ name := "Workshop", area_m2 := 24 }],
    entrance_facade := "south" }

/-- A concrete RNG state (the single-room generation path consumes no
draws, so the stream is irrelevant). -/
def rngZero : SeededRandom := ⟨fun _ => 0, 0⟩

/-- The floor plan the generator produces for `exConsC3`. -/
def planC3 : FloorPlan := (generate rngZero [] exConsC3).1

/-- A kitchen room along a 10 m south wall. -/
def exRoomW : Room :=
  { id := "room_0_0", name := "Kitchen",
    polygon := [⟨0, 0⟩, ⟨10, 0⟩, ⟨10, 5⟩, ⟨0, 5⟩], area_m2 := 50 }

/-- Its 10 m south exterior wall. -/
def exWallW : WallSegment :=
  { id := "wall_0_ext_0", start := ⟨0, 0⟩, stop := ⟨10, 0⟩,
    thickness_m := 0.35, is_exterior := true, facade := some "S",
    room_ids := ["room_0_0"] }

/-- Valid constraints for the kitchen scenario. -/
def exConsW : FloorPlanConstraints :=
  { envelope_polygon := [⟨0, 0⟩, ⟨10, 0⟩, ⟨10, 5⟩, ⟨0, 5⟩],
    total_area_m2 := 50, rooms := [{ name := "Kitchen", area_m2 := 50 }],
    entrance_facade := "south" }

/-- The window the placer puts on the kitchen wall (after the entrance). -/
def exWindowW : Opening :=
  ((place_openings [exRoomW] [exWallW] exConsW).openings).getD 1 default

/-- A floor plan holding two rooms with empty polygons: the overlap check
calls `Room.bounds`, which raises on the first of them. -/
def planC7 : FloorPlan :=
  FloorPlan.make
    [{ id := "room_0_0", name := "A", polygon := [], area_m2 := 0 },
     { id := "room_0_1", name := "B", polygon := [], area_m2 := 0 }]
    [] [] [] 0 0

/-- A well-formed single-room plan (witness input for the validator). -/
def planC7ok : FloorPlan :=
  FloorPlan.make
    [{ id := "room_0_0", name := "Hall",
       polygon := [⟨0, 0⟩, ⟨4, 0⟩, ⟨4, 4⟩, ⟨0, 4⟩], area_m2 := 16 }]
    [] [] [⟨0, 0⟩, ⟨4, 0⟩, ⟨4, 4⟩, ⟨0, 4⟩] 0 16

/-- The empty floor plan (witness input for the connectivity validator). -/
def emptyPlan : FloorPlan := FloorPlan.make [] [] [] [] 0 0

/-- Two room specifications (witness input for the partition step). -/
def exPartRooms : List RoomSpec :=
  [{ name := "Living Room", area_m2 := 10 }, { name := "Bath", area_m2 := 5 }]

/-!
## Theorems

Shared helper lemmas first, then one theorem per claim (with its witness or
counterexample where required).
-/

/-- Fold preservation of an invariant. -/
theorem foldlPreserve {α β : Type _} {P : α → Prop} {f : α → β → α}
    (hf : ∀ a b, P a → P (f a b)) :
    ∀ (l : List β) (a : α), P a → P (l.foldl f a) := by
  intro l
  induction l with
  | nil => intro a h; exact h
  | cons b rest ih => intro a h; exact ih _ (hf a b h)

/-- Writing back the element read at a valid index is the identity. -/
theorem set_getD_eq {α : Type _} (l : List α) (d : α) :
    ∀ i, i < l.length → l.set i (l.getD i d) = l := by
  induction l with
  | nil => intro i h; simp at h
  | cons a rest ih =>
    intro i h
    cases i with
    | zero => simp [List.set, List.getD]
    | succ j =>
      simp only [List.set, List.getD_cons_succ]
      rw [ih j (by simpa using h)]

/-- `getD` through `map`. -/
theorem getD_map {α β : Type _} (f : α → β) (l : List α) (d : α) :
    ∀ i, (l.map f).getD i (f d) = f (l.getD i d) := by
  induction l with
  | nil => intro i; simp [List.getD]
  | cons a rest ih =>
    intro i
    cases i with
    | zero => simp [List.getD]
    | succ j => exact ih j

/-- Moving an indexed element to the front is a permutation. -/
theorem cons_set_perm {α : Type _} (d : α) :
    ∀ (l : List α) (k : Nat) (a : α), k < l.length →
      (l.getD k d :: l.set k a).Perm (a :: l) := by
  intro l
  induction l with
  | nil => intro k a h; simp at h
  | cons x rest ih =>
    intro k a h
    cases k with
    | zero => simpa [List.getD] using List.Perm.swap a x rest
    | succ j =>
      have hj : j < rest.length := by simpa using h
      have p1 : (rest.getD j d :: x :: rest.set j a).Perm
          (x :: rest.getD j d :: rest.set j a) := List.Perm.swap x (rest.getD j d) _
      have p2 : (x :: rest.getD j d :: rest.set j a).Perm (x :: a :: rest) :=
        List.Perm.cons x (ih j a hj)
      have p3 : (x :: a :: rest).Perm (a :: x :: rest) := List.Perm.swap a x rest
      simpa [List.getD_cons_succ] using (p1.trans p2).trans p3

/-- Exchanging two positions is a permutation. -/
theorem set_set_perm {α : Type _} (d : α) :
    ∀ (l : List α) (i j : Nat), i < l.length → j < l.length →
      ((l.set i (l.getD j d)).set j (l.getD i d)).Perm l := by
  intro l
  induction l with
  | nil => intro i j hi _; simp at hi
  | cons x rest ih =>
    intro i j hi hj
    cases i with
    | zero =>
      cases j with
      | zero => simp [List.getD]
      | succ k =>
        have hk : k < rest.length := by simpa using hj
        simpa [List.getD, List.set] using cons_set_perm d rest k x hk
    | succ m =>
      cases j with
      | zero =>
        have hm : m < rest.length := by simpa using hi
        simpa [List.getD, List.set] using cons_set_perm d rest m x hm
      | succ k =>
        have hm : m < rest.length := by simpa using hi
        have hk : k < rest.length := by simpa using hj
        simpa [List.getD, List.set] using List.Perm.cons x (ih m k hm hk)

/-- `Opening` serialization round-trips. -/
theorem opening_roundtrip (o : Opening) :
    Opening.from_dict (Opening.to_dict o) = o := rfl

/-- `Room` serialization round-trips. -/
theorem room_roundtrip (r : Room) : Room.from_dict (Room.to_dict r) = r := rfl

/-- `WallSegment` serialization round-trips. -/
theorem wall_roundtrip (w : WallSegment) :
    WallSegment.from_dict (WallSegment.to_dict w) = w := by
  cases w with
  | mk id start stop th ext fac rids ops =>
    simp [WallSegment.to_dict, WallSegment.from_dict, List.map_map,
      Function.comp_def, opening_roundtrip]

/-- `__post_init__` is idempotent on `FloorPlan`. -/
theorem floorplan_postInit_idem (p : FloorPlan) :
    FloorPlan.postInit (FloorPlan.postInit p) = FloorPlan.postInit p := by
  cases p with
  | mk rooms walls openings envelope fi ta =>
    unfold FloorPlan.postInit
    by_cases h : ta = 0 ∧ ¬ rooms.isEmpty
    · rw [if_pos h]
      dsimp only
      by_cases h2 : (rooms.map Room.area_m2).sum = 0 ∧ ¬ rooms.isEmpty
      · rw [if_pos h2]
      · rw [if_neg h2]
    · rw [if_neg h, if_neg h]

/-- C10.  Serialization round-trip: for every `FloorPlan` (all Python
values pass through `__post_init__`, modelled by constructing via
`FloorPlan.make`), `from_dict (to_dict plan)` rebuilds the plan
field-by-field, including openings whose center is absent. -/
theorem floorplan_serialization_roundtrip (rooms : List Room)
    (walls : List WallSegment) (openings : List Opening)
    (envelope : List Point2D) (floor_index : Int) (total_area_m2 : ℚ) :
    FloorPlan.from_dict (FloorPlan.to_dict
      (FloorPlan.make rooms walls openings envelope floor_index total_area_m2)) =
      FloorPlan.make rooms walls openings envelope floor_index total_area_m2 := by
  have key : ∀ p : FloorPlan,
      FloorPlan.from_dict (FloorPlan.to_dict p) = FloorPlan.postInit p := by
    intro p
    cases p with
    | mk rooms walls openings envelope fi ta =>
      show FloorPlan.make _ _ _ _ _ _ = _
      unfold FloorPlan.make
      congr 1
      simp [FloorPlan.to_dict, List.map_map, Function.comp_def,
        opening_roundtrip, room_roundtrip, wall_roundtrip]
  rw [key]
  exact floorplan_postInit_idem _

/-- `List.contains` as membership for strings. -/
theorem string_contains_iff_mem {l : List String} {a : String} :
    l.contains a = true ↔ a ∈ l := by
  induction l with
  | nil => simp
  | cons x rest ih =>
    simp only [List.contains_cons, Bool.or_eq_true, beq_iff_eq, ih,
      List.mem_cons]

/-- C2.  `FloorPlanConstraints` construction rejects exactly when the
envelope has fewer than 3 vertices, the total area is non-positive, the
room list is empty, or the lower-cased entrance facade is not an accepted
spelling; otherwise it succeeds. -/
theorem constraints_reject_iff (c : FloorPlanConstraints) :
    c.postInit ≠ .ok () ↔
      (c.envelope_polygon.length < 3 ∨ c.total_area_m2 ≤ 0 ∨ c.rooms = [] ∨
        (pyLower c.entrance_facade) ∉ validFacades) := by
  unfold FloorPlanConstraints.postInit
  split_ifs with h1 h2 h3 h4
  · exact iff_of_true (by simp) (Or.inl h1)
  · exact iff_of_true (by simp) (Or.inr (Or.inl h2))
  · exact iff_of_true (by simp) (Or.inr (Or.inr (Or.inl (List.isEmpty_iff.mp h3))))
  · -- `split_ifs` normalizes the negated guard: here the facade is accepted
    refine iff_of_false (fun h => h rfl) ?_
    rintro (h | h | h | h)
    · exact h1 h
    · exact h2 h
    · exact h3 (by simp [h])
    · exact h (string_contains_iff_mem.mp h4)
  · exact iff_of_true (by simp)
      (Or.inr (Or.inr (Or.inr (fun hmem => h4 (string_contains_iff_mem.mpr hmem)))))

/-- C8.  The `strict` flag of `UKBuildingRegsValidator` changes nothing:
`validate` with `strict=True` and `strict=False` agree on every plan. -/
theorem uk_strict_flag_no_effect (fp : FloorPlan) :
    uk_validate true fp = uk_validate false fp := rfl

/-- C1.  Determinism of `FloorPlanGenerator.generate`: two independent
calls with the same seed draw the same pseudo-random stream
(`random.Random(seed)` is a pure function of the seed, abstracted as an
arbitrary stream assignment `seedStream`), and `generate` resets the
process-wide ID counters first, so whatever counter state each call
inherits, the floor plans — rooms, walls, openings, IDs and all — are
identical. -/
theorem generate_deterministic (seedStream : Int → Nat → ℚ) (S : Int)
    (c1 c2 : Counters) (cons : FloorPlanConstraints) :
    (generate ⟨seedStream S, 0⟩ c1 cons).1 =
      (generate ⟨seedStream S, 0⟩ c2 cons).1 := rfl

unseal Rat.add Rat.mul Rat.inv Rat.sub Rat.ofScientific in
/-- Counterexample to C4 as stated: on a 0.5 m south wall (with valid
constraints), the entrance door's corner-clearance clamp pushes
`position_along_wall` to `1.4`, outside `[0, 1]`. -/
theorem opening_position_unit_range_counterexample :
    exConsC4.postInit = .ok () ∧
      ∃ o ∈ (place_openings [exRoomC4] [exWallC4] exConsC4).openings,
        ¬ (0 ≤ o.position_along_wall ∧ o.position_along_wall ≤ 1) := by
  decide

unseal Rat.add Rat.mul Rat.inv Rat.sub Rat.ofScientific in
/-- Counterexample to C3 as stated: the generator, run on valid
constraints (1.2 m × 20 m envelope, one room, south entrance), places the
1.0 m entrance on the 1.2 m south wall at position `7/12`, so the opening
ends exactly at the wall corner — the claimed corner clearance fails on
the wall-end side and the geometry validator emits a diagnostic for an
opening placed by `OpeningPlacer`. -/
theorem opening_corner_clearance_counterexample :
    exConsC3.postInit = .ok () ∧
      check_opening_positions planC3 ≠ [] ∧
      ∃ o ∈ planC3.openings, ∃ w ∈ planC3.walls, w.id = o.wall_id ∧
        w.length > 0 ∧
        1 - o.position_along_wall - o.width_m / 2 / w.length <
          MIN_CORNER_DISTANCE / w.length := by
  decide

unseal Rat.add Rat.mul Rat.inv Rat.sub Rat.ofScientific in
/-- Counterexample to C7 as stated: on a plan holding two rooms with empty
polygons, the overlap check evaluates `Room.bounds`, which raises
(`min()` of an empty sequence) — `validate` is not total. -/
theorem geometry_validate_counterexample :
    geometry_validate GV_MIN_WIDTH GV_AREA_TOLERANCE planC7 0 =
      .error "min() arg is an empty sequence" := by
  decide

/-- The greedy pass of `_partition_rooms` only distributes the input rooms
over the two sides. -/
theorem partition_fold_perm (t : ℚ) (rooms : List RoomSpec) :
    ∀ acc : List RoomSpec × List RoomSpec × ℚ,
      ((rooms.foldl (partitionStep t) acc).1 ++
        (rooms.foldl (partitionStep t) acc).2.1).Perm
        (acc.1 ++ acc.2.1 ++ rooms) := by
  induction rooms with
  | nil => intro acc; simp
  | cons room rest ih =>
    intro acc
    obtain ⟨l, r, la⟩ := acc
    simp only [List.foldl_cons]
    refine (ih (partitionStep t (l, r, la) room)).trans ?_
    unfold partitionStep
    by_cases hc : la < t <;>
      simp only [hc, if_true, if_false, reduceIte] <;>
      · refine List.perm_iff_count.mpr fun a => ?_
        simp only [List.count_append, List.count_cons, List.count_nil,
          List.count_singleton]
        omega

/-- C6.  `_partition_rooms` on at least two rooms yields two non-empty
parts whose combined contents are exactly the input rooms. -/
theorem partition_rooms_sound (rooms : List RoomSpec) (left_frac : ℚ)
    (h : 2 ≤ rooms.length) :
    (partition_rooms rooms left_frac).1 ≠ [] ∧
    (partition_rooms rooms left_frac).2 ≠ [] ∧
    ((partition_rooms rooms left_frac).1 ++
      (partition_rooms rooms left_frac).2).Perm rooms := by
  rcases hfold : rooms.foldl
      (partitionStep (((rooms.map (·.area_m2)).sum) * left_frac)) ([], [], 0)
    with ⟨l, r, s⟩
  have hperm : (l ++ r).Perm rooms := by
    have := partition_fold_perm (((rooms.map (·.area_m2)).sum) * left_frac)
      rooms ([], [], 0)
    rw [hfold] at this
    simpa using this
  have hlen : l.length + r.length = rooms.length := by
    simpa using hperm.length_eq
  rcases l with _ | ⟨a, ltl⟩
  · rcases r with _ | ⟨r0, rest⟩
    · exfalso
      simp at hlen
      omega
    · have hpr : partition_rooms rooms left_frac = ([r0], rest) := by
        simp only [partition_rooms, hfold]
      rw [hpr]
      refine ⟨by simp, ?_, by simpa using hperm⟩
      intro hempty
      subst hempty
      simp at hlen
      omega
  · rcases r with _ | ⟨r0, rest⟩
    · have hne : a :: ltl ≠ [] := by simp
      have hpr : partition_rooms rooms left_frac =
          ((a :: ltl).dropLast, [(a :: ltl).getLast (by simp)]) := by
        simp only [partition_rooms, hfold]
      rw [hpr]
      refine ⟨?_, by simp, ?_⟩
      · intro hempty
        have hd := congrArg List.length hempty
        rw [List.length_dropLast] at hd
        simp only [List.length_cons, List.length_nil] at hd hlen
        omega
      · rw [List.dropLast_append_getLast hne]
        simpa using hperm
    · have hpr : partition_rooms rooms left_frac = (a :: ltl, r0 :: rest) := by
        simp only [partition_rooms, hfold]
      rw [hpr]
      exact ⟨by simp, by simp, hperm⟩

/-- Witness for C6 at two concrete rooms and ratio 1/2. -/
theorem partition_rooms_sound_witness :
    (partition_rooms exPartRooms (1/2)).1 ≠ [] ∧
    (partition_rooms exPartRooms (1/2)).2 ≠ [] ∧
    ((partition_rooms exPartRooms (1/2)).1 ++
      (partition_rooms exPartRooms (1/2)).2).Perm exPartRooms :=
  partition_rooms_sound exPartRooms (1/2) (by decide)

/-- A successful `_attempt_swap` keeps every polygon in place and only
permutes the room assignments. -/
theorem attempt_swap_spec (nodes : List BSPNode) (v : String × String)
    (adj : NameGraph) (nodes2 : List BSPNode)
    (h : attempt_swap nodes v adj = some nodes2) :
    nodes2.map (·.polygon) = nodes.map (·.polygon) ∧
    (nodes2.map (·.room_spec)).Perm (nodes.map (·.room_spec)) := by
  obtain ⟨v1, v2⟩ := v
  unfold attempt_swap at h
  dsimp only at h
  rcases h1 : findNodeIdxByRoomName nodes v1 with _ | ia <;> rw [h1] at h <;>
    rcases h2 : findNodeIdxByRoomName nodes v2 with _ | i2 <;> rw [h2] at h
  · cases h
  · cases h
  · cases h
  obtain ⟨adj_name, -, hf⟩ := List.exists_of_findSome?_eq_some h
  by_cases he : adj_name == v2
  · simp [he] at hf
  simp only [he, Bool.false_eq_true, if_false, reduceIte] at hf
  rcases h3 : findNodeIdxByRoomName nodes adj_name with _ | ia2 <;> rw [h3] at hf
  · cases hf
  dsimp only at hf
  cases hadj : are_adjacent (nodes.getD ia2 default).polygon
      (nodes.getD i2 default).polygon with
  | false =>
    rw [hadj] at hf
    simp at hf
  | true =>
  rw [hadj] at hf
  simp only [if_true, reduceIte, Option.some.injEq] at hf
  subst hf
  have hia2 : ia2 < nodes.length := by
    simpa [findNodeIdxByRoomName] using
      (List.findIdx?_eq_some_iff_findIdx_eq.mp h3).1
  have hi2 : i2 < nodes.length := by
    simpa [findNodeIdxByRoomName] using
      (List.findIdx?_eq_some_iff_findIdx_eq.mp h2).1
  constructor
  · rw [List.map_set, List.map_set]
    have e1 : ((nodes.getD ia2 default).polygon : List Point2D) =
        (nodes.map (·.polygon)).getD ia2 (default : BSPNode).polygon :=
      (getD_map (·.polygon) nodes default ia2).symm
    have e2 : ((nodes.getD i2 default).polygon : List Point2D) =
        (nodes.map (·.polygon)).getD i2 (default : BSPNode).polygon :=
      (getD_map (·.polygon) nodes default i2).symm
    simp only []
    rw [e1, e2, set_getD_eq _ _ ia2 (by simpa using hia2)]
    exact set_getD_eq _ _ i2 (by simpa using hi2)
  · rw [List.map_set, List.map_set]
    have e1 : ((nodes.getD ia2 default).room_spec : Option RoomSpec) =
        (nodes.map (·.room_spec)).getD ia2 (default : BSPNode).room_spec :=
      (getD_map (·.room_spec) nodes default ia2).symm
    have e2 : ((nodes.getD i2 default).room_spec : Option RoomSpec) =
        (nodes.map (·.room_spec)).getD i2 (default : BSPNode).room_spec :=
      (getD_map (·.room_spec) nodes default i2).symm
    simp only []
    rw [e1, e2]
    exact set_set_perm (default : BSPNode).room_spec _ ia2 i2
      (by simpa using hia2) (by simpa using hi2)

/-- The bounded repair loop preserves geometry and permutes assignments. -/
theorem resolveLoop_frame (req : NameGraph) :
    ∀ (fuel : Nat) (nodes : List BSPNode) (adj : NameGraph),
      (resolveLoop req fuel nodes adj).map (·.polygon) =
        nodes.map (·.polygon) ∧
      ((resolveLoop req fuel nodes adj).map (·.room_spec)).Perm
        (nodes.map (·.room_spec)) := by
  intro fuel
  induction fuel with
  | zero => intro nodes adj; exact ⟨rfl, List.Perm.refl _⟩
  | succ fuel ih =>
    intro nodes adj
    rcases hv : find_violations req adj with _ | ⟨v, rest⟩
    · simp only [resolveLoop, hv]
      exact ⟨trivial, List.Perm.refl _⟩
    rcases hs : attempt_swap nodes v adj with _ | nodes2
    · simp only [resolveLoop, hv, hs]
      exact ⟨trivial, List.Perm.refl _⟩
    simp only [resolveLoop, hv, hs]
    obtain ⟨hpoly, hperm⟩ := attempt_swap_spec nodes v adj nodes2 hs
    obtain ⟨hpoly2, hperm2⟩ := ih nodes2 (compute_adjacencies nodes2)
    exact ⟨hpoly2.trans hpoly, hperm2.trans hperm⟩

/-- C5.  `AdjacencyResolver.resolve` never changes geometry: the returned
nodes carry the same polygons in the same positions, and the multiset of
room assignments is preserved — the resolver only permutes `room_spec`
between nodes. -/
theorem adjacency_resolve_frame (nodes : List BSPNode)
    (c : FloorPlanConstraints) :
    (resolve nodes c).map (·.polygon) = nodes.map (·.polygon) ∧
    ((resolve nodes c).map (·.room_spec)).Perm (nodes.map (·.room_spec)) := by
  unfold resolve
  exact resolveLoop_frame (build_requirements c) 20 nodes
    (compute_adjacencies nodes)

/-- A valid position lies between the computed bounds. -/
theorem is_position_valid_range {pos w L mn mx sp : ℚ} {ex : List Opening}
    (h : is_position_valid pos w L mn mx sp ex = true) :
    mn ≤ pos ∧ pos ≤ mx := by
  unfold is_position_valid at h
  split at h
  · cases h
  · rename_i hc
    push_neg at hc
    exact hc

/-- The upper bound of `_find_valid_position` is one minus the margin. -/
theorem min_one_sub (a b : ℚ) : min (1 - a) (1 - b) = 1 - max a b :=
  min_sub_sub_left 1 a b

/-- Any position returned by `_find_valid_position` keeps the corner
margin on both sides. -/
theorem find_valid_position_bounds (wall : WallSegment)
    (t w cd sp : ℚ) (ex : List Opening) (p : ℚ)
    (h : find_valid_position wall t w cd sp ex = some p) :
    corner_margin wall w cd ≤ p ∧ p ≤ 1 - corner_margin wall w cd := by
  simp only [find_valid_position] at h
  rw [min_one_sub] at h
  have hmargin : corner_margin wall w cd =
      max (if wall.length > 0 then cd / wall.length else 0.1)
        (if wall.length > 0 then w / 2 / wall.length else 0.1) := rfl
  rw [← hmargin] at h
  by_cases hge : corner_margin wall w cd ≥ 1 - corner_margin wall w cd
  · rw [if_pos hge] at h
    cases h
  rw [if_neg hge] at h
  by_cases hv : is_position_valid t w wall.length (corner_margin wall w cd)
      (1 - corner_margin wall w cd) sp
      (ex.filter (fun o => o.wall_id == wall.id)) = true
  · rw [if_pos hv] at h
    cases h
    exact is_position_valid_range hv
  · rw [if_neg hv] at h
    obtain ⟨off, -, hoff⟩ := List.exists_of_findSome?_eq_some h
    by_cases hr : corner_margin wall w cd ≤ t + off ∧
        t + off ≤ 1 - corner_margin wall w cd
    · rw [if_pos hr] at hoff
      by_cases hv2 : is_position_valid (t + off) w wall.length
          (corner_margin wall w cd) (1 - corner_margin wall w cd) sp
          (ex.filter (fun o => o.wall_id == wall.id)) = true
      · rw [if_pos hv2] at hoff
        cases hoff
        exact hr
      · rw [if_neg hv2] at hoff
        cases hoff
    · rw [if_neg hr] at hoff
      cases hoff

/-- The corner margin is non-negative for non-negative inputs. -/
theorem corner_margin_nonneg (wall : WallSegment) (w cd : ℚ)
    (_hw : 0 ≤ w) (hcd : 0 ≤ cd) : 0 ≤ corner_margin wall w cd := by
  unfold corner_margin
  dsimp only
  refine le_trans ?_ (le_max_left _ _)
  by_cases hL : wall.length > 0
  · rw [if_pos hL]
    positivity
  · rw [if_neg hL]
    norm_num

/-- What `_place_door_on_wall` returns on success. -/
theorem place_door_on_wall_spec (wall : WallSegment) (ex : List Opening)
    (cts : Counters) (o : Opening) (cts2 : Counters)
    (h : place_door_on_wall wall ex cts = (some o, cts2)) :
    o.type = "door" ∧ o.width_m = 0.9 ∧ o.wall_id = wall.id ∧
    find_valid_position wall 0.5 0.9 DOOR_MIN_FROM_CORNER MIN_OPENING_SPACING
      ex = some o.position_along_wall := by
  unfold place_door_on_wall at h
  rcases hf : find_valid_position wall 0.5 0.9 DOOR_MIN_FROM_CORNER
      MIN_OPENING_SPACING ex with _ | pos <;> rw [hf] at h
  · have hno : (none : Option Opening) = some o := congrArg Prod.fst h
    cases hno
  · have ho : some ({ id := (generate_opening_id cts "door" 0 "INT").1,
                      type := "door", wall_id := wall.id,
                      position_along_wall := pos,
                      width_m := 0.9, height_m := 2.1, sill_height_m := 0,
                      center := some (wall.get_point_at_position pos) }
        : Opening) = some o :=
      congrArg Prod.fst h
    cases ho
    exact ⟨rfl, rfl, rfl, rfl⟩

/-- What `_place_window_on_wall` returns on success. -/
theorem place_window_on_wall_spec (wall : WallSegment) (ex : List Opening)
    (cts : Counters) (o : Opening) (cts2 : Counters)
    (h : place_window_on_wall wall ex cts = (some o, cts2)) :
    o.type = "window" ∧ o.width_m = 1.2 ∧ o.wall_id = wall.id ∧
    find_valid_position wall 0.5 1.2 WINDOW_MIN_FROM_CORNER
      MIN_OPENING_SPACING ex = some o.position_along_wall := by
  unfold place_window_on_wall at h
  rcases hf : find_valid_position wall 0.5 1.2 WINDOW_MIN_FROM_CORNER
      MIN_OPENING_SPACING ex with _ | pos <;> rw [hf] at h
  · have hno : (none : Option Opening) = some o := congrArg Prod.fst h
    cases hno
  · have ho : some ({ id := (generate_opening_id cts "window" 0
                        (match wall.facade with
                         | none => "N"
                         | some f => if f.isEmpty then "N" else f)).1,
                      type := "window", wall_id := wall.id,
                      position_along_wall := pos,
                      width_m := 1.2, height_m := 1.2, sill_height_m := 0.9,
                      center := some (wall.get_point_at_position pos) }
        : Opening) = some o :=
      congrArg Prod.fst h
    cases ho
    exact ⟨rfl, rfl, rfl, rfl⟩

/-- The entrance placer only ever returns an `"entrance"` opening. -/
theorem place_entrance_door_spec (rooms : List Room)
    (walls : List WallSegment) (c : FloorPlanConstraints) (cts : Counters)
    (o : Opening) (cts2 : Counters)
    (h : place_entrance_door rooms walls c cts = (some o, cts2)) :
    o.type = "entrance" := by
  simp only [place_entrance_door] at h
  split at h
  · simp at h
  · split at h
    · simp at h
    · simp only [Prod.mk.injEq, Option.some.injEq] at h
      obtain ⟨ho, -⟩ := h
      subst ho
      rfl

/-- Doors accumulated by the internal-door pass satisfy `DoorPlaced`. -/
theorem internalDoorsInner_pres (iw walls : List WallSegment)
    (hiw : ∀ w ∈ iw, w ∈ walls ∧ w.is_exterior = false)
    (ex : List Opening) (idx : Nat) (acc : DoorsAcc)
    (hacc : ∀ o ∈ acc.doors, DoorPlaced walls o) (nm : String) :
    ∀ o ∈ (internalDoorsInner iw ex idx acc nm).doors, DoorPlaced walls o := by
  unfold internalDoorsInner
  by_cases h1 : acc.placed.contains
      (sortedPair (acc.rooms.getD idx default).name nm) = true
  · rw [if_pos h1]
    exact hacc
  rw [if_neg h1]
  rcases h2 : acc.rooms.find? (fun r => r.name == nm) with _ | adj_room <;>
    simp only [h2]
  · exact hacc
  rcases h3 : iw.find? (fun w =>
      w.room_ids.contains (acc.rooms.getD idx default).id &&
      w.room_ids.contains adj_room.id) with _ | shared_wall <;> simp only [h3]
  · exact hacc
  rcases h4 : place_door_on_wall shared_wall (ex ++ acc.doors) acc.counters
    with ⟨d?, cts2⟩
  rcases d? with _ | door
  · exact hacc
  · intro o ho
    replace ho : o ∈ acc.doors ++ [door] := ho
    rcases List.mem_append.mp ho with hold | hnew
    · exact hacc o hold
    · have hd := place_door_on_wall_spec shared_wall (ex ++ acc.doors)
        acc.counters door cts2 h4
      have hmem := List.mem_of_find?_eq_some h3
      have hww := hiw shared_wall hmem
      rcases List.mem_singleton.mp hnew with rfl
      exact ⟨hd.1, hd.2.1, shared_wall, hww.1, hww.2, hd.2.2.1,
        ex ++ acc.doors, hd.2.2.2⟩

/-- Every door returned by `_place_internal_doors` satisfies `DoorPlaced`. -/
theorem place_internal_doors_doors (rooms : List Room)
    (walls : List WallSegment) (c : FloorPlanConstraints)
    (ex : List Opening) (cts : Counters) :
    ∀ o ∈ (place_internal_doors rooms walls c ex cts).doors,
      DoorPlaced walls o := by
  unfold place_internal_doors
  dsimp only
  have hiw : ∀ w ∈ walls.filter (fun w => ¬ w.is_exterior),
      w ∈ walls ∧ w.is_exterior = false := by
    intro w hw
    have := List.mem_filter.mp hw
    exact ⟨this.1, by simpa using this.2⟩
  refine @foldlPreserve DoorsAcc Nat
    (fun acc => ∀ o ∈ acc.doors, DoorPlaced walls o) _ ?_ _ _ ?_
  · intro acc idx hacc
    rcases hspec : c.rooms.find?
        (fun s => s.name == (acc.rooms.getD idx default).name) with _ | spec
    · simp only [hspec]
      exact hacc
    · simp only [hspec]
      exact foldlPreserve
        (fun a nm ha => internalDoorsInner_pres _ walls hiw ex idx a ha nm)
        spec.adjacency acc hacc
  · intro o ho
    cases ho

/-- A selected window wall belongs to the candidate list. -/
theorem select_best_wall_mem (ws : List WallSegment) (w : WallSegment)
    (h : select_best_wall_for_window ws = some w) : w ∈ ws := by
  unfold select_best_wall_for_window at h
  by_cases he : ws.isEmpty
  · rw [if_pos he] at h
    cases h
  rw [if_neg he] at h
  rcases hs : ws.insertionSort wallSortLe with _ | ⟨a, tl⟩
  · rw [hs] at h
    cases h
  · rw [hs] at h
    cases h
    have : w ∈ ws.insertionSort wallSortLe := by
      rw [hs]
      exact List.mem_cons_self _ _
    exact (List.perm_insertionSort wallSortLe ws).mem_iff.mp this

/-- Every window returned by `_place_windows` satisfies `WindowPlaced`. -/
theorem place_windows_spec (rooms : List Room) (walls : List WallSegment)
    (c : FloorPlanConstraints) (ex : List Opening) (cts : Counters) :
    ∀ o ∈ (place_windows rooms walls c ex cts).1, WindowPlaced walls o := by
  unfold place_windows
  dsimp only
  refine @foldlPreserve (List Opening × Counters) Room
    (fun acc => ∀ o ∈ acc.1, WindowPlaced walls o) _ ?_ _ _ ?_
  · intro acc room hacc
    dsimp only
    split
    · exact hacc
    split
    · exact hacc
    split
    · exact hacc
    rename_i best hb
    rcases hp : place_window_on_wall best (ex ++ acc.1) acc.2 with ⟨w?, cts2⟩
    rcases w? with _ | win
    · exact hacc
    · intro o ho
      replace ho : o ∈ acc.1 ++ [win] := ho
      rcases List.mem_append.mp ho with hold | hnew
      · exact hacc o hold
      · have hspec := place_window_on_wall_spec best (ex ++ acc.1) acc.2
          win cts2 hp
        have hmem := select_best_wall_mem _ _ hb
        have hmem2 := List.mem_filter.mp hmem
        have hmem3 := List.mem_filter.mp hmem2.1
        rcases List.mem_singleton.mp hnew with rfl
        exact ⟨hspec.1, hspec.2.1, best, hmem3.1, by simpa using hmem3.2,
          hspec.2.2.1, ex ++ acc.1, hspec.2.2.2⟩
  · intro o ho
    cases ho

/-- `place_openings` returns the entrance (if any), then the internal
doors, then the windows. -/
theorem place_openings_split (rooms : List Room) (walls : List WallSegment)
    (c : FloorPlanConstraints) :
    ∃ entL doors wins,
      (place_openings rooms walls c).openings = (entL ++ doors) ++ wins ∧
      (∀ o ∈ entL, o.type = "entrance") ∧
      (∀ o ∈ doors, DoorPlaced walls o) ∧
      (∀ o ∈ wins, WindowPlaced walls o) := by
  unfold place_openings
  dsimp only
  rcases he : place_entrance_door rooms walls c [] with ⟨e?, cts1⟩
  rcases e? with _ | e
  · refine ⟨[], _, _, rfl, by simp, ?_, ?_⟩
    · intro o ho
      exact place_internal_doors_doors rooms walls c _ _ o ho
    · intro o ho
      exact place_windows_spec _ walls c _ _ o ho
  · refine ⟨[e], _, _, rfl, ?_, ?_, ?_⟩
    · intro o ho
      rcases List.mem_singleton.mp ho with rfl
      exact place_entrance_door_spec rooms walls c [] o cts1 he
    · intro o ho
      exact place_internal_doors_doors rooms walls c _ _ o ho
    · intro o ho
      exact place_windows_spec _ walls c _ _ o ho

/-- C4 (amended): every non-entrance opening returned by
`OpeningPlacer.place_openings` (internal doors and windows — the
entrance's clamp can overshoot on very short walls) has
`position_along_wall` in the closed interval `[0, 1]`, for every input
list of rooms and walls and every constraints value. -/
theorem opening_position_unit_range_amended (rooms : List Room)
    (walls : List WallSegment) (c : FloorPlanConstraints) :
    ∀ o ∈ (place_openings rooms walls c).openings,
      o.type ≠ "entrance" →
      0 ≤ o.position_along_wall ∧ o.position_along_wall ≤ 1 := by
  obtain ⟨entL, doors, wins, heq, hent, hdoor, hwin⟩ :=
    place_openings_split rooms walls c
  intro o ho hne
  rw [heq] at ho
  rcases List.mem_append.mp ho with h1 | hw
  · rcases List.mem_append.mp h1 with he | hd
    · exact absurd (hent o he) hne
    · obtain ⟨-, hwidth, wall, -, -, -, ex, hf⟩ := hdoor o hd
      have hb := find_valid_position_bounds wall 0.5 0.9 DOOR_MIN_FROM_CORNER
        MIN_OPENING_SPACING ex _ hf
      have hm := corner_margin_nonneg wall 0.9 DOOR_MIN_FROM_CORNER
        (by norm_num) (by norm_num [DOOR_MIN_FROM_CORNER])
      exact ⟨le_trans hm hb.1, by linarith [hb.2]⟩
  · obtain ⟨-, hwidth, wall, -, -, -, ex, hf⟩ := hwin o hw
    have hb := find_valid_position_bounds wall 0.5 1.2 WINDOW_MIN_FROM_CORNER
      MIN_OPENING_SPACING ex _ hf
    have hm := corner_margin_nonneg wall 1.2 WINDOW_MIN_FROM_CORNER
      (by norm_num) (by norm_num [WINDOW_MIN_FROM_CORNER])
    exact ⟨le_trans hm hb.1, by linarith [hb.2]⟩

unseal Rat.add Rat.mul Rat.inv Rat.sub Rat.ofScientific in
/-- The amended C4 bound holds for the concrete kitchen window. -/
theorem opening_position_unit_range_amended_witness :
    exWindowW ∈ (place_openings [exRoomW] [exWallW] exConsW).openings ∧
    exWindowW.type ≠ "entrance" ∧
    (0 ≤ exWindowW.position_along_wall ∧
      exWindowW.position_along_wall ≤ 1) :=
  ⟨by decide, by decide,
    opening_position_unit_range_amended [exRoomW] [exWallW] exConsW
      exWindowW (by decide) (by decide)⟩

/-- C3 (amended): every non-entrance opening `o` a `place_openings` run
emits sits on one of the input walls `w` (matched by id) and keeps, on
both wall ends, the margin `_find_valid_position` actually enforces: the
larger of the proportional corner clearance (0.2 m for doors, 0.4 m for
windows) and the opening's proportional half-width — not their sum, and
the entrance (placed by clamping, not by `_find_valid_position`) is
excluded. -/
theorem opening_corner_clearance_amended (rooms : List Room)
    (walls : List WallSegment) (c : FloorPlanConstraints) :
    ∀ o ∈ (place_openings rooms walls c).openings,
      o.type ≠ "entrance" →
      ∃ w ∈ walls, o.wall_id = w.id ∧
        corner_margin w o.width_m
            (if o.type = "window" then WINDOW_MIN_FROM_CORNER
             else DOOR_MIN_FROM_CORNER) ≤ o.position_along_wall ∧
        o.position_along_wall ≤
          1 - corner_margin w o.width_m
            (if o.type = "window" then WINDOW_MIN_FROM_CORNER
             else DOOR_MIN_FROM_CORNER) := by
  obtain ⟨entL, doors, wins, heq, hent, hdoor, hwin⟩ :=
    place_openings_split rooms walls c
  intro o ho hne
  rw [heq] at ho
  rcases List.mem_append.mp ho with h1 | hw
  · rcases List.mem_append.mp h1 with he | hd
    · exact absurd (hent o he) hne
    · obtain ⟨htype, hwidth, wall, hmem, -, hid, ex, hf⟩ := hdoor o hd
      have hb := find_valid_position_bounds wall 0.5 0.9 DOOR_MIN_FROM_CORNER
        MIN_OPENING_SPACING ex _ hf
      refine ⟨wall, hmem, hid, ?_, ?_⟩
      · rw [hwidth, htype]
        simpa using hb.1
      · rw [hwidth, htype]
        simpa using hb.2
  · obtain ⟨htype, hwidth, wall, hmem, -, hid, ex, hf⟩ := hwin o hw
    have hb := find_valid_position_bounds wall 0.5 1.2 WINDOW_MIN_FROM_CORNER
      MIN_OPENING_SPACING ex _ hf
    refine ⟨wall, hmem, hid, ?_, ?_⟩
    · rw [hwidth, htype]
      simpa using hb.1
    · rw [hwidth, htype]
      simpa using hb.2

unseal Rat.add Rat.mul Rat.inv Rat.sub Rat.ofScientific in
/-- The amended C3 margin holds for the concrete kitchen window. -/
theorem opening_corner_clearance_amended_witness :
    exWindowW ∈ (place_openings [exRoomW] [exWallW] exConsW).openings ∧
    exWindowW.type ≠ "entrance" ∧
    (∃ w ∈ [exWallW], exWindowW.wall_id = w.id ∧
      corner_margin w exWindowW.width_m
          (if exWindowW.type = "window" then WINDOW_MIN_FROM_CORNER
           else DOOR_MIN_FROM_CORNER) ≤ exWindowW.position_along_wall ∧
      exWindowW.position_along_wall ≤
        1 - corner_margin w exWindowW.width_m
          (if exWindowW.type = "window" then WINDOW_MIN_FROM_CORNER
           else DOOR_MIN_FROM_CORNER)) :=
  ⟨by decide, by decide,
    opening_corner_clearance_amended [exRoomW] [exWallW] exConsW
      exWindowW (by decide) (by decide)⟩

/-- Binding a successful `Except` computation just applies the
continuation. -/
theorem except_bind_ok {ε α β : Type _} (x : Except ε α) (v : α)
    (f : α → Except ε β) (h : x = .ok v) : (x >>= f) = f v := by
  rw [h]
  rfl

/-- `_rooms_overlap` cannot raise when both polygons are non-empty. -/
theorem rooms_overlap_ok (r1 r2 : Room) (h1 : r1.polygon ≠ [])
    (h2 : r2.polygon ≠ []) : ∃ b, rooms_overlap r1 r2 = .ok b := by
  have hb1 : Room.boundsE r1 = .ok (polygon_bounds r1.polygon) := by
    unfold Room.boundsE
    rcases hp : r1.polygon with _ | ⟨a, l⟩
    · exact absurd hp h1
    · rfl
  have hb2 : Room.boundsE r2 = .ok (polygon_bounds r2.polygon) := by
    unfold Room.boundsE
    rcases hp : r2.polygon with _ | ⟨a, l⟩
    · exact absurd hp h2
    · rfl
  unfold rooms_overlap
  rw [except_bind_ok _ _ _ hb1, except_bind_ok _ _ _ hb2]
  dsimp only
  split
  · exact ⟨false, rfl⟩
  · split
    · exact ⟨_, rfl⟩
    · exact ⟨false, rfl⟩

/-- A `foldlM` over `Except` whose step never raises never raises. -/
theorem foldlM_ok {ε : Type _} {α β : Type _} (f : α → β → Except ε α)
    (l : List β) (hf : ∀ a b, b ∈ l → ∃ a2, f a b = .ok a2) :
    ∀ a, ∃ a2, l.foldlM f a = .ok a2 := by
  induction l with
  | nil => intro a; exact ⟨a, rfl⟩
  | cons b rest ih =>
    intro a
    obtain ⟨a2, ha2⟩ := hf a b (List.mem_cons_self b rest)
    rw [List.foldlM_cons, except_bind_ok _ _ _ ha2]
    exact ih (fun x y hy => hf x y (List.mem_cons_of_mem b hy)) a2

/-- `_check_no_overlaps` cannot raise when every polygon is non-empty. -/
theorem check_no_overlaps_ok (rooms : List Room)
    (hpoly : ∀ r ∈ rooms, r.polygon ≠ []) :
    ∃ errs, check_no_overlaps rooms = .ok errs := by
  unfold check_no_overlaps
  refine foldlM_ok _ _ ?_ []
  intro errs i hi
  have hilt : i < rooms.length := List.mem_range.mp hi
  have hmem1 : rooms.getD i default ∈ rooms := by
    rw [List.getD_eq_getElem rooms default hilt]
    exact List.getElem_mem hilt
  refine foldlM_ok _ _ ?_ errs
  intro errs2 room2 hr2
  have hmem2 : room2 ∈ rooms := List.mem_of_mem_drop hr2
  obtain ⟨b, hb⟩ := rooms_overlap_ok (rooms.getD i default) room2
    (hpoly _ hmem1) (hpoly _ hmem2)
  rw [except_bind_ok _ _ _ hb]
  cases b
  · exact ⟨errs2, rfl⟩
  · exact ⟨_, rfl⟩

/-- C7 (amended): `GeometryValidator.validate` is total on every plan
whose rooms all carry a non-empty polygon (an empty polygon makes the
overlap check's `Room.bounds` property raise): it returns the pair
`(passed, diagnostics)` where the diagnostics are the concatenation of
the overlap, minimum-width, total-area (for positive targets) and
opening-clearance checks, and `passed` holds iff that list is empty. -/
theorem geometry_validate_amended (mw tol target : ℚ) (fp : FloorPlan)
    (hpoly : ∀ r ∈ fp.rooms, r.polygon ≠ []) :
    ∃ overlaps d,
      check_no_overlaps fp.rooms = .ok overlaps ∧
      d = overlaps ++ check_minimum_widths mw fp.rooms ++
        (if target > 0 then check_total_area tol fp target else []) ++
        check_opening_positions fp ∧
      geometry_validate mw tol fp target = .ok (d.isEmpty, d) ∧
      (d.isEmpty = true ↔ d = []) := by
  obtain ⟨overlaps, hov⟩ := check_no_overlaps_ok fp.rooms hpoly
  refine ⟨overlaps, _, hov, rfl, ?_, List.isEmpty_iff⟩
  unfold geometry_validate
  rw [except_bind_ok _ _ _ hov]
  rfl

/-- The amended C7 totality statement, evaluated on a concrete
single-room plan. -/
theorem geometry_validate_amended_witness :
    (∀ r ∈ planC7ok.rooms, r.polygon ≠ []) ∧
    ∃ overlaps d,
      check_no_overlaps planC7ok.rooms = .ok overlaps ∧
      d = overlaps ++ check_minimum_widths GV_MIN_WIDTH planC7ok.rooms ++
        (if (16 : ℚ) > 0 then
          check_total_area GV_AREA_TOLERANCE planC7ok 16 else []) ++
        check_opening_positions planC7ok ∧
      geometry_validate GV_MIN_WIDTH GV_AREA_TOLERANCE planC7ok 16 =
        .ok (d.isEmpty, d) ∧
      (d.isEmpty = true ↔ d = []) :=
  ⟨by decide,
    geometry_validate_amended GV_MIN_WIDTH GV_AREA_TOLERANCE 16 planC7ok
      (by decide)⟩

/-- Anything listed under a key of the graph occurs among its neighbor
occurrences. -/
theorem lookup_getD_subset (c : String) :
    ∀ (g : NameGraph), ∀ x ∈ (g.lookup c).getD [], x ∈ graphNbrs g := by
  intro g
  induction g with
  | nil =>
    intro x hx
    simp [List.lookup] at hx
  | cons e rest ih =>
    obtain ⟨k, vs⟩ := e
    intro x hx
    simp only [List.lookup] at hx
    rcases hk : c == k with _ | _ <;> rw [hk] at hx
    · have := ih x hx
      simp only [graphNbrs, List.map_cons, List.flatten_cons, List.mem_append]
      right
      simpa [graphNbrs] using this
    · simp only [Option.getD_some] at hx
      simp only [graphNbrs, List.map_cons, List.flatten_cons, List.mem_append]
      exact Or.inl hx

/-- One neighbor expansion appends the same block of fresh (unvisited,
non-`EXTERIOR`) neighbors to the visited list and the queue. -/
theorem bfsStepNbrs_spec (nbrs : List String) :
    ∀ v q, ∃ f,
      bfsStepNbrs v q nbrs = (v ++ f, q ++ f) ∧
      (∀ y ∈ f, y ∈ nbrs ∧ y ∉ v ∧ y ≠ "EXTERIOR") ∧
      (∀ y ∈ nbrs, y ≠ "EXTERIOR" → y ∈ v ++ f) ∧
      (v.Nodup → (v ++ f).Nodup) := by
  induction nbrs with
  | nil =>
    intro v q
    exact ⟨[], by simp [bfsStepNbrs], by simp, by simp, by simp⟩
  | cons n rest ih =>
    intro v q
    have hrec : bfsStepNbrs v q (n :: rest) =
        if n ∉ v ∧ n ≠ "EXTERIOR" then bfsStepNbrs (v ++ [n]) (q ++ [n]) rest
        else bfsStepNbrs v q rest := by
      unfold bfsStepNbrs
      rw [List.foldl_cons]
      dsimp only
      by_cases hc : n ∉ v ∧ n ≠ "EXTERIOR"
      · rw [if_pos hc, if_pos hc]
      · rw [if_neg hc, if_neg hc]
    by_cases hc : n ∉ v ∧ n ≠ "EXTERIOR"
    · rw [hrec, if_pos hc]
      obtain ⟨f1, he, hf, hcov, hndp⟩ := ih (v ++ [n]) (q ++ [n])
      refine ⟨n :: f1, ?_, ?_, ?_, ?_⟩
      · rw [he]
        simp
      · intro y hy
        rcases List.mem_cons.mp hy with rfl | hy
        · exact ⟨List.mem_cons_self _ _, hc.1, hc.2⟩
        · obtain ⟨h1, h2, h3⟩ := hf y hy
          exact ⟨List.mem_cons_of_mem _ h1,
            fun hv => h2 (List.mem_append_left _ hv), h3⟩
      · intro y hy hyx
        rcases List.mem_cons.mp hy with rfl | hy
        · simp
        · have := hcov y hy hyx
          simpa using this
      · intro hv
        have hvn : (v ++ [n]).Nodup := by
          simp [List.nodup_append, hv, hc.1]
        have := hndp hvn
        simpa using this
    · rw [hrec, if_neg hc]
      obtain ⟨f1, he, hf, hcov, hndp⟩ := ih v q
      refine ⟨f1, he, ?_, ?_, hndp⟩
      · intro y hy
        obtain ⟨h1, h2, h3⟩ := hf y hy
        exact ⟨List.mem_cons_of_mem _ h1, h2, h3⟩
      · intro y hy hyx
        rcases List.mem_cons.mp hy with rfl | hy
        · by_cases hnv : y ∈ v
          · exact List.mem_append_left _ hnv
          · push_neg at hc
            exact absurd (hc hnv) hyx
        · exact hcov y hy hyx

/-- The BFS loop invariant: starting from a duplicate-free visited list
that contains the start, covers the queue, consists of reachable nodes,
and is `doorEdge`-closed off the queue, and given enough fuel, the loop
returns a superset of the visited list all of whose members are
reachable and which is `doorEdge`-closed. -/
theorem bfsLoop_invariant (g : NameGraph) (start : String) :
    ∀ fuel visited queue,
      visited.Nodup →
      start ∈ visited →
      (∀ x ∈ visited, x ∈ start :: graphNbrs g) →
      (∀ x ∈ queue, x ∈ visited) →
      (∀ x ∈ visited, Relation.ReflTransGen (doorEdge g) start x) →
      (∀ x ∈ visited, x ∉ queue → ∀ y, doorEdge g x y → y ∈ visited) →
      queue.length + (start :: graphNbrs g).dedup.length ≤
        fuel + visited.length →
      (∀ x ∈ bfsLoop g fuel visited queue,
        Relation.ReflTransGen (doorEdge g) start x) ∧
      (∀ x ∈ visited, x ∈ bfsLoop g fuel visited queue) ∧
      (∀ x ∈ bfsLoop g fuel visited queue, ∀ y, doorEdge g x y →
        y ∈ bfsLoop g fuel visited queue) := by
  intro fuel
  induction fuel with
  | zero =>
    intro visited queue hnd hst hsub hq hreach hcl hfuel
    have hlen : visited.length ≤ (start :: graphNbrs g).dedup.length := by
      have h1 : visited.toFinset.card = visited.length :=
        List.toFinset_card_of_nodup hnd
      have h2 : visited.toFinset ⊆ (start :: graphNbrs g).toFinset := by
        intro x hx
        rw [List.mem_toFinset] at hx ⊢
        exact hsub x hx
      have h3 := Finset.card_le_card h2
      rw [h1, List.card_toFinset] at h3
      exact h3
    have hq0 : queue = [] := by
      have : queue.length = 0 := by omega
      exact List.length_eq_zero.mp this
    subst hq0
    simp only [bfsLoop]
    exact ⟨hreach, fun x hx => hx,
      fun x hx y hxy => hcl x hx (by simp) y hxy⟩
  | succ fuel ih =>
    intro visited queue hnd hst hsub hq hreach hcl hfuel
    rcases queue with _ | ⟨current, queue⟩
    · simp only [bfsLoop]
      exact ⟨hreach, fun x hx => hx,
        fun x hx y hxy => hcl x hx (by simp) y hxy⟩
    · obtain ⟨f, he, hf, hcov, hndp⟩ :=
        bfsStepNbrs_spec ((g.lookup current).getD []) visited queue
      have hloop : bfsLoop g (fuel + 1) visited (current :: queue) =
          bfsLoop g fuel (visited ++ f) (queue ++ f) := by
        simp only [bfsLoop, he]
      rw [hloop]
      have hcur : current ∈ visited := hq current (List.mem_cons_self _ _)
      have hsub2 : ∀ x ∈ visited ++ f, x ∈ start :: graphNbrs g := by
        intro x hx
        rcases List.mem_append.mp hx with hx | hx
        · exact hsub x hx
        · exact List.mem_cons_of_mem _
            (lookup_getD_subset current g x (hf x hx).1)
      have hq2 : ∀ x ∈ queue ++ f, x ∈ visited ++ f := by
        intro x hx
        rcases List.mem_append.mp hx with hx | hx
        · exact List.mem_append_left _
            (hq x (List.mem_cons_of_mem _ hx))
        · exact List.mem_append_right _ hx
      have hreach2 : ∀ x ∈ visited ++ f,
          Relation.ReflTransGen (doorEdge g) start x := by
        intro x hx
        rcases List.mem_append.mp hx with hx | hx
        · exact hreach x hx
        · obtain ⟨h1, -, h3⟩ := hf x hx
          exact (hreach current hcur).tail ⟨h1, h3⟩
      have hcl2 : ∀ x ∈ visited ++ f, x ∉ queue ++ f →
          ∀ y, doorEdge g x y → y ∈ visited ++ f := by
        intro x hx hxq y hxy
        rcases List.mem_append.mp hx with hx | hx
        · by_cases hxc : x = current
          · subst hxc
            exact hcov y hxy.1 hxy.2
          · have hxq2 : x ∉ current :: queue := by
              intro hmem
              rcases List.mem_cons.mp hmem with h | h
              · exact hxc h
              · exact hxq (List.mem_append_left _ h)
            exact List.mem_append_left _ (hcl x hx hxq2 y hxy)
        · exact absurd (List.mem_append_right _ hx) hxq
      have hfuel2 : (queue ++ f).length +
          (start :: graphNbrs g).dedup.length ≤
          fuel + (visited ++ f).length := by
        have h1 : (queue ++ f).length = queue.length + f.length :=
          List.length_append _ _
        have h2 : (visited ++ f).length = visited.length + f.length :=
          List.length_append _ _
        have h3 : (current :: queue).length = queue.length + 1 :=
          List.length_cons _ _
        omega
      obtain ⟨c1, c2, c3⟩ := ih (visited ++ f) (queue ++ f) (hndp hnd)
        (List.mem_append_left _ hst) hsub2 hq2 hreach2 hcl2 hfuel2
      exact ⟨c1, fun x hx => c2 x (List.mem_append_left _ hx), c3⟩

/-- The BFS visited set is exactly the set of nodes reachable from the
start along `doorEdge`. -/
theorem bfsVisited_iff (g : NameGraph) (start : String) (x : String) :
    x ∈ bfsVisited g start ↔
      Relation.ReflTransGen (doorEdge g) start x := by
  obtain ⟨h1, h2, h3⟩ := bfsLoop_invariant g start (bfsFuel g start)
    [start] [start]
    (List.nodup_singleton _)
    (List.mem_singleton_self _)
    (by
      intro y hy
      rcases List.mem_singleton.mp hy with rfl
      exact List.mem_cons_self _ _)
    (fun y hy => hy)
    (by
      intro y hy
      rcases List.mem_singleton.mp hy with rfl
      exact Relation.ReflTransGen.refl)
    (fun y hy hq => absurd hy hq)
    (by
      simp [bfsFuel]
      omega)
  constructor
  · exact h1 x
  · intro hx
    induction hx with
    | refl => exact h2 start (List.mem_singleton_self _)
    | tail hab hbc ihab => exact h3 _ ihab _ hbc

/-- C9.  `ConnectivityValidator.validate`: an empty room list passes with
no diagnostics; otherwise, with the start room chosen by
`_find_start_room` (entrance-named first, else hallway-named, else the
first room), the disconnected report contains exactly the room ids not
reachable from the start room's id along the door graph's edges, and the
plan passes iff every room id is reachable. -/
theorem connectivity_validate_correct (fp : FloorPlan) :
    (fp.rooms = [] → connectivity_validate fp = (true, [])) ∧
    (∀ start, find_start_room fp.rooms = some start →
      (∀ x, x ∈ find_disconnected_rooms (build_door_graph fp) start.id
            ((fp.rooms.map (·.id)).dedup) ↔
          (x ∈ fp.rooms.map (·.id) ∧
            ¬ Relation.ReflTransGen (doorEdge (build_door_graph fp))
              start.id x)) ∧
      ((connectivity_validate fp).1 = true ↔
        find_disconnected_rooms (build_door_graph fp) start.id
          ((fp.rooms.map (·.id)).dedup) = []) ∧
      ((connectivity_validate fp).1 = true ↔
        ∀ x ∈ fp.rooms.map (·.id),
          Relation.ReflTransGen (doorEdge (build_door_graph fp))
            start.id x)) := by
  constructor
  · intro h
    simp [connectivity_validate, find_start_room, h]
  · intro start hstart
    have hchar : ∀ x,
        x ∈ find_disconnected_rooms (build_door_graph fp) start.id
          ((fp.rooms.map (·.id)).dedup) ↔
        (x ∈ fp.rooms.map (·.id) ∧
          ¬ Relation.ReflTransGen (doorEdge (build_door_graph fp))
            start.id x) := by
      intro x
      unfold find_disconnected_rooms
      rw [List.mem_filter, List.mem_dedup]
      constructor
      · rintro ⟨hx, hp⟩
        refine ⟨hx, fun hr => ?_⟩
        have hv := (bfsVisited_iff (build_door_graph fp) start.id x).mpr hr
        simp only [decide_eq_true_eq, List.elem_iff] at hp
        exact hp hv
      · rintro ⟨hx, hr⟩
        refine ⟨hx, ?_⟩
        simp only [decide_eq_true_eq, List.elem_iff]
        intro hv
        exact hr ((bfsVisited_iff (build_door_graph fp) start.id x).mp hv)
    have hval : connectivity_validate fp =
        if ¬ (find_disconnected_rooms (build_door_graph fp) start.id
            ((fp.rooms.map (·.id)).dedup)).isEmpty then
          (false, ["Disconnected rooms (no door access): " ++
            String.intercalate ", "
              ((find_disconnected_rooms (build_door_graph fp) start.id
                ((fp.rooms.map (·.id)).dedup)).map
                  (get_room_name fp.rooms))])
        else (true, []) := by
      simp only [connectivity_validate, hstart]
    have hfst : (connectivity_validate fp).1 = true ↔
        find_disconnected_rooms (build_door_graph fp) start.id
          ((fp.rooms.map (·.id)).dedup) = [] := by
      rw [hval]
      by_cases hd : (find_disconnected_rooms (build_door_graph fp) start.id
          ((fp.rooms.map (·.id)).dedup)).isEmpty = true
      · rw [if_neg (by simp [hd])]
        simpa using List.isEmpty_iff.mp hd
      · rw [if_pos (by simp [hd])]
        simp only [List.isEmpty_iff] at hd
        simpa using hd
    refine ⟨hchar, hfst, ?_⟩
    rw [hfst]
    constructor
    · intro hnil x hx
      by_contra hr
      have : x ∈ find_disconnected_rooms (build_door_graph fp) start.id
          ((fp.rooms.map (·.id)).dedup) := (hchar x).mpr ⟨hx, hr⟩
      rw [hnil] at this
      cases this
    · intro hall
      rcases hd : find_disconnected_rooms (build_door_graph fp) start.id
          ((fp.rooms.map (·.id)).dedup) with _ | ⟨x, rest⟩
      · exact hd
      · exfalso
        have hx : x ∈ find_disconnected_rooms (build_door_graph fp) start.id
            ((fp.rooms.map (·.id)).dedup) := by
          rw [hd]
          exact List.mem_cons_self _ _
        obtain ⟨hxm, hxr⟩ := (hchar x).mp hx
        exact hxr (hall x hxm)

/-- The C9 statement, applied to the concrete empty plan. -/
theorem connectivity_validate_correct_witness :
    connectivity_validate emptyPlan = (true, []) :=
  (connectivity_validate_correct emptyPlan).1 (by decide)

end GenArch

